import Mathlib

/-!
# Verification of the scanreader TIFF structural decoder

Shallow embedding of `src/scanreader/tifffile.py`: the header parser
(`TiffFile.__init__`), the directory-chain walker (`TiffPages._seek`,
`TiffPages._load_virtual_frames`, `TiffPages.__len__`), tag decoding
(`TiffTag.__init__`), lightweight frames (`TiffFrame.__init__`,
`TiffFrame.keyframe`), page layout queries (`TiffPage.is_contiguous`,
`is_final`, `is_memmappable`) and the segment decode helpers
(`buffered_read`, the strip loop of `TiffPage.asarray`, `tile_decode`).

Machine integers are modelled as `Nat`/`Int` (Python integers are unbounded);
byte channels are a size plus a byte function; Python exceptions become an
explicit error type.
-/

namespace Tifffile

/-- Python exception classes raised by the embedded code paths. -/
inductive PyErr where
  | tiffFileError (msg : String)
  | structError
  | indexError (msg : String)
  | valueError (msg : String)
  | runtimeError (msg : String)
  | notImplementedError (msg : String)
  | zeroDivisionError
  | assertionError
  deriving Repr, DecidableEq

/-- A read-only byte channel: `size` bytes, byte `i` is `byte i % 256`
(the channel only ever yields values below 256, like Python `bytes`). -/
structure FileH where
  size : Nat
  byte : Nat → Nat

/-- `fh.read(pos, n)`: up to `n` bytes starting at `pos`, truncated at EOF,
mirroring `FileHandle.read` after a seek. -/
def FileH.read (fh : FileH) (pos n : Nat) : List Nat :=
  match n with
  | 0 => []
  | m + 1 => if pos < fh.size then fh.byte pos % 256 :: fh.read (pos + 1) m else []

/-- Build a channel from a concrete byte list. -/
def FileH.ofList (l : List Nat) : FileH :=
  ⟨l.length, fun i => l.getD i 0⟩

/-- `struct.unpack` of one unsigned integer of `width` bytes: fails unless
exactly `width` bytes are supplied (a short read makes `unpack` raise
`struct.error`). -/
def unpackUInt (isLE : Bool) (width : Nat) (bs : List Nat) : Option Nat :=
  if bs.length = width then
    some ((if isLE then bs.reverse else bs).foldl (fun a b => a * 256 + b % 256) 0)
  else none

/-- Little/big-endian encoding of `v` into `width` bytes (test-input builder
for theorem statements, value taken mod `256^width`). -/
def packUInt (isLE : Bool) (width v : Nat) : List Nat :=
  match width with
  | 0 => []
  | w + 1 =>
      if isLE then v % 256 :: packUInt isLE w (v / 256)
      else packUInt isLE w (v / 256) ++ [v % 256]

/-- The per-format constants of the `TIFF.CLASSIC_LE` … `TIFF.NDPI_LE`
descriptor classes. -/
structure TiffFormatDesc where
  version : Nat
  byteorderLE : Bool
  offsetsize : Nat
  ifdoffsetsize : Nat
  tagnosize : Nat
  tagsize : Nat
  deriving Repr, DecidableEq

def CLASSIC_LE : TiffFormatDesc := ⟨42, true, 4, 4, 2, 12⟩
def CLASSIC_BE : TiffFormatDesc := ⟨42, false, 4, 4, 2, 12⟩
def BIG_LE : TiffFormatDesc := ⟨43, true, 8, 8, 8, 20⟩
def BIG_BE : TiffFormatDesc := ⟨43, false, 8, 8, 8, 20⟩
def NDPI_LE : TiffFormatDesc := ⟨42, true, 4, 8, 2, 12⟩

/-- Header recognition of `TiffFile.__init__` (tifffile.py lines 264-293):
read 4 bytes, map `II`/`MM` to a byte order, unpack the version, and for
version 43 validate the BigTIFF offset-size/reserved fields. -/
def openTiffHeader (fh : FileH) (is_ndpi : Bool) : Except PyErr TiffFormatDesc := do
  let header := fh.read 0 4
  let byteorderLE ←
    if header.take 2 = [73, 73] then pure true        -- b'II'
    else if header.take 2 = [77, 77] then pure false  -- b'MM'
    else throw (.tiffFileError "not a TIFF file")
  let version ←
    match unpackUInt byteorderLE 2 ((header.drop 2).take 2) with
    | some v => pure v
    | none => throw .structError
  if version = 43 then
    -- BigTiff: offsetsize, zero = unpack(byteorder+'HH', fh.read(4))
    let bs := fh.read 4 4
    match unpackUInt byteorderLE 2 (bs.take 2), unpackUInt byteorderLE 2 (bs.drop 2) with
    | some offsetsize, some zeroField =>
        if zeroField ≠ 0 ∨ offsetsize ≠ 8 then
          throw (.tiffFileError "invalid BigTIFF file")
        else if byteorderLE then pure BIG_LE else pure BIG_BE
    | _, _ => throw .structError
  else if version = 42 then
    if !byteorderLE then pure CLASSIC_BE
    else if is_ndpi then pure NDPI_LE
    else pure CLASSIC_LE
  else throw (.tiffFileError "invalid TIFF file")

/-- The 2-byte order mark, as a byte list. -/
def markBytes (isLE : Bool) : List Nat := if isLE then [73, 73] else [77, 77]

theorem read_ofList (l : List Nat) (pos n : Nat) :
    (FileH.ofList l).read pos n = ((l.drop pos).take n).map (· % 256) := by
  induction n generalizing pos with
  | zero => simp [FileH.read]
  | succ m ih =>
    rw [show (FileH.ofList l).read pos (m + 1) =
        (if pos < l.length then l.getD pos 0 % 256 :: (FileH.ofList l).read (pos + 1) m
         else []) from rfl]
    by_cases h : pos < l.length
    · have hg : l.getD pos 0 = l[pos] := by
        simp [List.getD_eq_getElem?_getD, List.getElem?_eq_getElem h]
      rw [if_pos h, ih, List.drop_eq_getElem_cons h, List.take_succ_cons, List.map_cons, hg]
    · rw [if_neg h, List.drop_eq_nil_of_le (le_of_not_lt h)]
      simp

theorem packUInt_length (isLE : Bool) (w v : Nat) : (packUInt isLE w v).length = w := by
  induction w generalizing v with
  | zero => rfl
  | succ w ih => cases isLE <;> simp [packUInt, ih]

theorem packUInt_lt (isLE : Bool) (w v : Nat) : ∀ b ∈ packUInt isLE w v, b < 256 := by
  induction w generalizing v with
  | zero => simp [packUInt]
  | succ w ih =>
    intro b hb
    cases isLE
    · simp [packUInt] at hb
      rcases hb with hb | hb
      · exact ih _ b hb
      · omega
    · simp [packUInt] at hb
      rcases hb with hb | hb
      · omega
      · exact ih _ b hb

theorem packUInt_map_mod (isLE : Bool) (w v : Nat) :
    (packUInt isLE w v).map (· % 256) = packUInt isLE w v := by
  have hm : ∀ x : Nat, x % 256 % 256 = x % 256 := fun x => Nat.mod_mod_of_dvd x (dvd_refl 256)
  induction w generalizing v with
  | zero => rfl
  | succ w ih =>
    cases isLE
    · simp [packUInt, ih, hm]
    · simp [packUInt, ih, hm]

theorem packUInt_reverse (w v : Nat) :
    (packUInt true w v).reverse = packUInt false w v := by
  induction w generalizing v with
  | zero => rfl
  | succ w ih => simp [packUInt, ih]

theorem foldl_packUInt_false (w v : Nat) :
    (packUInt false w v).foldl (fun a b => a * 256 + b % 256) 0 = v % 256 ^ w := by
  induction w generalizing v with
  | zero => simp [packUInt, Nat.mod_one]
  | succ w ih =>
    simp only [packUInt, Bool.false_eq_true, ite_false, List.foldl_append,
      List.foldl_cons, List.foldl_nil, ih]
    have h2 : v % 256 ^ (w + 1) = v % 256 + 256 * (v / 256 % 256 ^ w) := by
      rw [pow_succ, mul_comm (256 ^ w) 256, Nat.mod_mul]
    rw [h2, Nat.mod_mod_of_dvd _ (dvd_refl 256)]
    ring

theorem unpackUInt_packUInt (isLE : Bool) (w v : Nat) :
    unpackUInt isLE w (packUInt isLE w v) = some (v % 256 ^ w) := by
  unfold unpackUInt
  rw [if_pos (packUInt_length isLE w v)]
  cases isLE
  · simp [foldl_packUInt_false]
  · simp [packUInt_reverse, foldl_packUInt_false]

theorem unpackUInt_packUInt_of_lt (isLE : Bool) {w v : Nat} (h : v < 256 ^ w) :
    unpackUInt isLE w (packUInt isLE w v) = some v := by
  rw [unpackUInt_packUInt, Nat.mod_eq_of_lt h]

/-- Behaviour of `openTiffHeader` once a valid order mark has been read:
the remaining control flow depends only on the version field `vb` and,
in the BigTIFF case, on the following 4 bytes. -/
theorem openTiffHeader_mark (le ndpi : Bool) (vb rest : List Nat)
    (hlen : vb.length = 2) (hmap : vb.map (· % 256) = vb) :
    openTiffHeader (FileH.ofList (markBytes le ++ vb ++ rest)) ndpi =
      match unpackUInt le 2 vb with
      | none => Except.error PyErr.structError
      | some version =>
          if version = 43 then
            match unpackUInt le 2 (((rest.map (· % 256)).take 4).take 2),
                  unpackUInt le 2 (((rest.map (· % 256)).take 4).drop 2) with
            | some offsetsize, some zf =>
                if zf ≠ 0 ∨ offsetsize ≠ 8 then
                  Except.error (PyErr.tiffFileError "invalid BigTIFF file")
                else if le then Except.ok BIG_LE else Except.ok BIG_BE
            | some _, none => Except.error PyErr.structError
            | none, _ => Except.error PyErr.structError
          else if version = 42 then
            if !le then Except.ok CLASSIC_BE
            else if ndpi then Except.ok NDPI_LE else Except.ok CLASSIC_LE
          else Except.error (PyErr.tiffFileError "invalid TIFF file") := by
  obtain ⟨x, y, rfl⟩ := List.length_eq_two.mp hlen
  simp only [List.map_cons, List.map_nil, List.cons.injEq, and_true] at hmap
  obtain ⟨hx, hy⟩ := hmap
  have hthrow : ∀ e : PyErr, (throw e : Except PyErr TiffFormatDesc) = Except.error e :=
    fun _ => rfl
  have hpure : ∀ t : TiffFormatDesc, (pure t : Except PyErr TiffFormatDesc) = Except.ok t :=
    fun _ => rfl
  cases le
  · simp [openTiffHeader, read_ofList, markBytes, hx, hy, List.take_cons, List.map_take]
    rcases hu : unpackUInt false 2 [x, y] with _ | v
    · simp [hu, hthrow, Bind.bind, Except.bind]
    · simp only [hu]
      by_cases h43 : v = 43
      · rcases hA : unpackUInt false 2 (((rest.map (· % 256)).take 4).take 2) with _ | a <;>
          rcases hB : unpackUInt false 2 (((rest.map (· % 256)).take 4).drop 2) with _ | b <;>
            simp [h43, hA, hB, hthrow, hpure]
      · by_cases h42 : v = 42 <;> simp [h42, h43, hthrow, hpure]
  · simp [openTiffHeader, read_ofList, markBytes, hx, hy, List.take_cons, List.map_take]
    rcases hu : unpackUInt true 2 [x, y] with _ | v
    · simp [hu, hthrow, Bind.bind, Except.bind]
    · simp only [hu]
      by_cases h43 : v = 43
      · rcases hA : unpackUInt true 2 (((rest.map (· % 256)).take 4).take 2) with _ | a <;>
          rcases hB : unpackUInt true 2 (((rest.map (· % 256)).take 4).drop 2) with _ | b <;>
            simp [h43, hA, hB, hthrow, hpure]
      · by_cases h42 : v = 42 <;> simp [h42, h43, hthrow, hpure]

theorem openTiffHeader_badmark (b0 b1 : Nat) (rest : List Nat) (ndpi : Bool)
    (hb0 : b0 < 256) (hb1 : b1 < 256)
    (h1 : ¬(b0 = 73 ∧ b1 = 73)) (h2 : ¬(b0 = 77 ∧ b1 = 77)) :
    openTiffHeader (FileH.ofList (b0 :: b1 :: rest)) ndpi
      = Except.error (PyErr.tiffFileError "not a TIFF file") := by
  have e : ((FileH.ofList (b0 :: b1 :: rest)).read 0 4).take 2 = [b0, b1] := by
    rw [read_ofList]
    rcases rest with _ | ⟨c, cs⟩ <;>
      simp [Nat.mod_eq_of_lt hb0, Nat.mod_eq_of_lt hb1, List.take_cons]
  have t1 : ¬([b0, b1] = [73, 73]) := fun hc => h1 (by simpa using hc)
  have t2 : ¬([b0, b1] = [77, 77]) := fun hc => h2 (by simpa using hc)
  simp only [openTiffHeader]
  rw [e, if_neg t1, if_neg t2]
  rfl

theorem openTiffHeader_badversion (le : Bool) (v : Nat) (rest : List Nat) (ndpi : Bool)
    (hv : v < 65536) (h42 : v ≠ 42) (h43 : v ≠ 43) :
    openTiffHeader (FileH.ofList (markBytes le ++ packUInt le 2 v ++ rest)) ndpi
      = Except.error (PyErr.tiffFileError "invalid TIFF file") := by
  rw [openTiffHeader_mark le ndpi _ rest (packUInt_length _ _ _) (packUInt_map_mod _ _ _),
      unpackUInt_packUInt_of_lt le (show v < 256 ^ 2 by norm_num; omega)]
  simp [h42, h43]

theorem openTiffHeader_classic (le : Bool) (rest : List Nat) :
    openTiffHeader (FileH.ofList (markBytes le ++ packUInt le 2 42 ++ rest)) false
      = Except.ok (if le then CLASSIC_LE else CLASSIC_BE) := by
  rw [openTiffHeader_mark le false _ rest (packUInt_length _ _ _) (packUInt_map_mod _ _ _),
      unpackUInt_packUInt_of_lt le (show 42 < 256 ^ 2 by norm_num)]
  cases le <;> simp

theorem bigtail_parts (le : Bool) (os zf : Nat) (rest : List Nat) :
    (((packUInt le 2 os ++ packUInt le 2 zf ++ rest).map (· % 256)).take 4).take 2
        = packUInt le 2 os ∧
    (((packUInt le 2 os ++ packUInt le 2 zf ++ rest).map (· % 256)).take 4).drop 2
        = packUInt le 2 zf := by
  have hm : (packUInt le 2 os ++ packUInt le 2 zf ++ rest).map (· % 256)
      = (packUInt le 2 os ++ packUInt le 2 zf) ++ rest.map (· % 256) := by
    simp [packUInt_map_mod]
  have h4 : ((packUInt le 2 os ++ packUInt le 2 zf ++ rest).map (· % 256)).take 4
      = packUInt le 2 os ++ packUInt le 2 zf := by
    rw [hm]
    exact List.take_left' (by simp [packUInt_length])
  refine ⟨?_, ?_⟩
  · rw [h4]; exact List.take_left' (packUInt_length le 2 os)
  · rw [h4]; exact List.drop_left' (packUInt_length le 2 os)

theorem openTiffHeader_bigbad (le : Bool) (os zf : Nat) (rest : List Nat) (ndpi : Bool)
    (hos : os < 65536) (hzf : zf < 65536) (h : ¬(os = 8 ∧ zf = 0)) :
    openTiffHeader (FileH.ofList
        (markBytes le ++ packUInt le 2 43 ++ (packUInt le 2 os ++ packUInt le 2 zf ++ rest))) ndpi
      = Except.error (PyErr.tiffFileError "invalid BigTIFF file") := by
  rw [openTiffHeader_mark le ndpi _ _ (packUInt_length _ _ _) (packUInt_map_mod _ _ _),
      unpackUInt_packUInt_of_lt le (show 43 < 256 ^ 2 by norm_num)]
  rw [(bigtail_parts le os zf rest).1, (bigtail_parts le os zf rest).2,
      unpackUInt_packUInt_of_lt le (show os < 256 ^ 2 by norm_num; omega),
      unpackUInt_packUInt_of_lt le (show zf < 256 ^ 2 by norm_num; omega)]
  have hc : zf ≠ 0 ∨ os ≠ 8 := by tauto
  simp [hc]

theorem openTiffHeader_bigok (le : Bool) (rest : List Nat) (ndpi : Bool) :
    openTiffHeader (FileH.ofList
        (markBytes le ++ packUInt le 2 43 ++ (packUInt le 2 8 ++ packUInt le 2 0 ++ rest))) ndpi
      = Except.ok (if le then BIG_LE else BIG_BE) := by
  rw [openTiffHeader_mark le ndpi _ _ (packUInt_length _ _ _) (packUInt_map_mod _ _ _),
      unpackUInt_packUInt_of_lt le (show 43 < 256 ^ 2 by norm_num)]
  rw [(bigtail_parts le 8 0 rest).1, (bigtail_parts le 8 0 rest).2,
      unpackUInt_packUInt_of_lt le (show 8 < 256 ^ 2 by norm_num),
      unpackUInt_packUInt_of_lt le (show 0 < 256 ^ 2 by norm_num)]
  cases le <;> simp

/-- C1: `open(channel)` reads the 2-byte order mark and 2-byte version:
`II` selects little-endian and `MM` big-endian; version 42 selects the classic
format; version 43 selects the big variant only after validating that the
2-byte offset-size field equals 8 and the 2-byte reserved field equals 0;
every other order mark, every other (complete) version field, and every
malformed big-variant field pair fails with `TiffFileError` and no format
descriptor (hence no document) is produced. -/
theorem c1_open_header_classification :
    (∀ (b0 b1 : Nat) (rest : List Nat) (ndpi : Bool), b0 < 256 → b1 < 256 →
      ¬(b0 = 73 ∧ b1 = 73) → ¬(b0 = 77 ∧ b1 = 77) →
      openTiffHeader (FileH.ofList (b0 :: b1 :: rest)) ndpi
        = Except.error (PyErr.tiffFileError "not a TIFF file"))
  ∧ (∀ (le : Bool) (v : Nat) (rest : List Nat) (ndpi : Bool), v < 65536 → v ≠ 42 → v ≠ 43 →
      openTiffHeader (FileH.ofList (markBytes le ++ packUInt le 2 v ++ rest)) ndpi
        = Except.error (PyErr.tiffFileError "invalid TIFF file"))
  ∧ (∀ (le : Bool) (rest : List Nat),
      openTiffHeader (FileH.ofList (markBytes le ++ packUInt le 2 42 ++ rest)) false
        = Except.ok (if le then CLASSIC_LE else CLASSIC_BE))
  ∧ (∀ (le : Bool) (os zf : Nat) (rest : List Nat) (ndpi : Bool),
      os < 65536 → zf < 65536 → ¬(os = 8 ∧ zf = 0) →
      openTiffHeader (FileH.ofList
          (markBytes le ++ packUInt le 2 43
            ++ (packUInt le 2 os ++ packUInt le 2 zf ++ rest))) ndpi
        = Except.error (PyErr.tiffFileError "invalid BigTIFF file"))
  ∧ (∀ (le : Bool) (rest : List Nat) (ndpi : Bool),
      openTiffHeader (FileH.ofList
          (markBytes le ++ packUInt le 2 43
            ++ (packUInt le 2 8 ++ packUInt le 2 0 ++ rest))) ndpi
        = Except.ok (if le then BIG_LE else BIG_BE)) :=
  ⟨openTiffHeader_badmark, openTiffHeader_badversion, openTiffHeader_classic,
   openTiffHeader_bigbad, openTiffHeader_bigok⟩

/-- Witness for C1 at concrete headers. -/
theorem c1_open_header_classification_witness :
    openTiffHeader (FileH.ofList [0, 0, 42, 0]) false
        = Except.error (PyErr.tiffFileError "not a TIFF file")
  ∧ openTiffHeader (FileH.ofList (markBytes true ++ packUInt true 2 41)) false
        = Except.error (PyErr.tiffFileError "invalid TIFF file")
  ∧ openTiffHeader (FileH.ofList (markBytes true ++ packUInt true 2 42)) false
        = Except.ok CLASSIC_LE
  ∧ openTiffHeader (FileH.ofList
        (markBytes false ++ packUInt false 2 43
          ++ (packUInt false 2 4 ++ packUInt false 2 0 ++ []))) false
        = Except.error (PyErr.tiffFileError "invalid BigTIFF file")
  ∧ openTiffHeader (FileH.ofList
        (markBytes true ++ packUInt true 2 43
          ++ (packUInt true 2 8 ++ packUInt true 2 0 ++ []))) false
        = Except.ok BIG_LE := by
  refine ⟨?_, ?_, ?_, ?_, ?_⟩
  · exact c1_open_header_classification.1 0 0 [42, 0] false (by decide) (by decide)
      (by decide) (by decide)
  · exact c1_open_header_classification.2.1 true 41 [] false (by decide) (by decide) (by decide)
  · exact c1_open_header_classification.2.2.1 true []
  · exact c1_open_header_classification.2.2.2.1 false 4 0 [] false (by decide) (by decide)
      (by decide)
  · exact c1_open_header_classification.2.2.2.2 true [] false

/-! ## Page layout queries: `is_contiguous`, `is_final`, `is_memmappable` -/

/-- Attributes of a materialized `TiffPage` consulted by the layout queries.
`byteorderIsNative` stands for "the file's declared byte order equals the
platform-native one" (`self.parent.isnative` upstream); in this repository the
line consulting it inside `is_memmappable` is commented out. -/
structure PageAttrs where
  compression : Nat
  bitspersample : Nat
  fillorder : Nat
  predictor : Nat
  is_subsampled : Bool
  hasTileWidth : Bool
  hasImageDepth : Bool
  hasTileDepth : Bool
  imagewidth : Nat
  imagelength : Nat
  imagedepth : Nat
  tilewidth : Nat
  tilelength : Nat
  tiledepth : Nat
  is_stk : Bool
  dataoffsets : List Int
  databytecounts : List Int
  dtypeItemsize : Nat
  parentIsFile : Bool
  byteorderIsNative : Bool
  deriving Repr, DecidableEq

/-- The generator `all((offsets[i] + bytecounts[i] == offsets[i+1] or
bytecounts[i+1] == 0) for i in range(len(offsets)-1))` over parallel lists. -/
def contigAll : List Int → List Int → Bool
  | o1 :: o2 :: os, b1 :: b2 :: bs =>
      (o1 + b1 == o2 || b2 == 0) && contigAll (o2 :: os) (b2 :: bs)
  | _, _ => true

/-- `TiffPage.is_contiguous` (tifffile.py 2595-2623): offset and size of the
contiguous data run, else `none`.  The `none` results for an empty
offsets/bytecounts list stand for the `IndexError` Python would raise there
(unreachable for pages materialized from tag pairs). -/
def PageAttrs.is_contiguous (p : PageAttrs) : Option (Int × Int) :=
  if p.compression ≠ 1 ∨
      ¬(p.bitspersample = 8 ∨ p.bitspersample = 16 ∨
        p.bitspersample = 32 ∨ p.bitspersample = 64) then
    none
  else if p.hasTileWidth ∧
      (p.imagewidth ≠ p.tilewidth ∨ p.imagelength % p.tilelength ≠ 0 ∨
       p.tilewidth % 16 ≠ 0 ∨ p.tilelength % 16 ≠ 0) then
    none
  else if p.hasTileWidth ∧ p.hasImageDepth ∧ p.hasTileDepth ∧
      (p.imagelength ≠ p.tilelength ∨ p.imagedepth % p.tiledepth ≠ 0) then
    none
  else
    match p.dataoffsets, p.databytecounts with
    | [], _ => none
    | [o], b :: _ => some (o, b)
    | [_], [] => none
    | o :: os, bs =>
        if p.is_stk || contigAll (o :: os) bs then some (o, bs.sum) else none

/-- `TiffPage.is_final` (2625-2633): contiguous, default fill order, no
predictor, not chroma-subsampled. -/
def PageAttrs.is_final (p : PageAttrs) : Bool :=
  p.is_contiguous.isSome && p.fillorder == 1 && p.predictor == 1 && !p.is_subsampled

/-- `TiffPage.is_memmappable` (2635-2640).  The upstream conjunct
`(self.bitspersample == 8 or self.parent.isnative)` is commented out in this
repository, so the byte order is not consulted. -/
def PageAttrs.is_memmappable (p : PageAttrs) : Bool :=
  p.parentIsFile && p.is_final &&
    (match p.is_contiguous with
     | some oc => oc.1 % (p.dtypeItemsize : Int) == 0
     | none => false)

/-- A contiguous, final, aligned page recorded as stored in non-native byte
order. -/
def nonNativePage : PageAttrs :=
  { compression := 1, bitspersample := 8, fillorder := 1, predictor := 1,
    is_subsampled := false, hasTileWidth := false, hasImageDepth := false,
    hasTileDepth := false, imagewidth := 4, imagelength := 4, imagedepth := 1,
    tilewidth := 0, tilelength := 0, tiledepth := 1, is_stk := false,
    dataoffsets := [16], databytecounts := [16], dtypeItemsize := 2,
    parentIsFile := true, byteorderIsNative := false }

/-- C2 counterexample: a page in non-native byte order that is nevertheless
memory-mappable, because this repository's `is_memmappable` never consults the
byte order (the check is commented out). -/
theorem c2_nonnative_memmappable :
    nonNativePage.is_memmappable = true ∧ nonNativePage.byteorderIsNative = false := by
  constructor <;> rfl

/-- C2 amended: `is_memmappable` holds iff the channel is a real file, the
page data are contiguous and in final form (no compression beyond `NONE`,
default fill order, no predictor, no chroma subsampling), and the contiguous
start offset is a multiple of the element size; the declared byte order is
not consulted at all. -/
theorem c2_is_memmappable_amended (p : PageAttrs) :
    (p.is_memmappable = true ↔
      p.parentIsFile = true ∧ p.fillorder = 1 ∧ p.predictor = 1 ∧
      p.is_subsampled = false ∧
      ∃ o c, p.is_contiguous = some (o, c) ∧ o % (p.dtypeItemsize : Int) = 0)
  ∧ (∀ b, PageAttrs.is_memmappable { p with byteorderIsNative := b }
        = p.is_memmappable) := by
  constructor
  · rcases hc : p.is_contiguous with _ | ⟨o, c⟩
    · simp [PageAttrs.is_memmappable, PageAttrs.is_final, hc]
    · simp [PageAttrs.is_memmappable, PageAttrs.is_final, hc, Prod.mk.injEq]
      tauto
  · intro b
    simp [PageAttrs.is_memmappable, PageAttrs.is_final, PageAttrs.is_contiguous]

/-! ## The directory-chain walker: `TiffPages._seek` (tifffile.py 1663-1785) -/

/-- Read the tag-count field at a directory offset
(`unpack(tagnoformat, fh.read(tagnosize))`); `none` models a failed seek
(negative offset) or `struct.error` on a short read. -/
def readTagno (tiff : TiffFormatDesc) (fh : FileH) (offset : Int) : Option Nat :=
  if offset < 0 then none
  else unpackUInt tiff.byteorderLE tiff.tagnosize (fh.read offset.toNat tiff.tagnosize)

/-- Read an IFD-offset field at a position
(`unpack(ifdoffsetformat, fh.read(ifdoffsetsize))`). -/
def readIfdOffset (tiff : TiffFormatDesc) (fh : FileH) (pos : Int) : Option Nat :=
  if pos < 0 then none
  else unpackUInt tiff.byteorderLE tiff.ifdoffsetsize (fh.read pos.toNat tiff.ifdoffsetsize)

/-- Mutable state of a `TiffPages`, as far as `_seek`/`__len__` are concerned:
the slot list (each slot reduced to its directory offset — `_seek` only ever
reads `page.offset` or the raw integer from a slot), the `_indexed` flag and
the cached `_nextpageoffset`. -/
structure PagesState where
  pages : List Int
  indexed : Bool
  nextpageoffset : Option Int
  deriving Repr, DecidableEq

/-- Python list indexing `pages[i]` (negative indices count from the end);
`none` is `IndexError`. -/
def pyGet (l : List Int) (i : Int) : Option Int :=
  if 0 ≤ i then l.get? i.toNat
  else if 0 ≤ i + l.length then l.get? (i + l.length).toNat else none

/-- Result of a `_seek` call: the final state (state mutations persist across
a raise, as in Python), the offsets of the slots whose tag-count headers were
read during the walk, whether `log.warning` was called, and the exception
raised, if any. -/
structure SeekResult where
  st : PagesState
  trace : List Int
  warned : Bool
  err : Option PyErr
  deriving Repr, DecidableEq

/-- The `while lenpages < maxpages` walk of `_seek` (lines 1737-1778), fuel =
`maxpages - lenpages` (every non-final iteration appends exactly one slot).
Arguments: remaining fuel, `pages`, current `offset`, `_nextpageoffset`,
accumulated read trace, accumulated warning flag. -/
def seekLoop (tiff : TiffFormatDesc) (fh : FileH) (index : Int) :
    Nat → List Int → Int → Option Int → List Int → Bool → SeekResult
  | 0, pages, _, npo, trace, warned => ⟨⟨pages, false, npo⟩, trace, warned, none⟩
  | fuel + 1, pages, offset, npo, trace, warned =>
    match readTagno tiff fh offset with
    | none =>
        -- struct.error inside the try: warn, drop the slot, end the chain
        ⟨⟨pages.dropLast, true, npo⟩, trace ++ [offset], true, none⟩
    | some tagno =>
        if 4096 < tagno then
          -- TiffFileError('suspicious number of tags') caught by the same except
          ⟨⟨pages.dropLast, true, npo⟩, trace ++ [offset], true, none⟩
        else
          let npo' : Int := offset + (tiff.tagnosize : Int) + (tagno : Int) * (tiff.tagsize : Int)
          match readIfdOffset tiff fh npo' with
          | none =>
              -- struct.error outside any try: propagates
              ⟨⟨pages, false, some npo'⟩, trace ++ [offset], warned, some .structError⟩
          | some nxt =>
              if nxt = 0 then ⟨⟨pages, true, some npo'⟩, trace ++ [offset], warned, none⟩
              else if fh.size ≤ nxt then
                ⟨⟨pages, true, some npo'⟩, trace ++ [offset], true, none⟩
              else
                let pages' := pages ++ [(nxt : Int)]
                if 0 ≤ index ∧ index < (pages'.length : Int) then
                  ⟨⟨pages', false, some npo'⟩, trace ++ [offset], warned, none⟩
                else if pages'.length = 100 ∧ (nxt : Int) ∈ pages'.dropLast then
                  ⟨⟨pages', false, some npo'⟩, trace ++ [offset], warned,
                    some (.tiffFileError "invalid circular IFD reference")⟩
                else
                  seekLoop tiff fh index fuel pages' nxt (some npo') (trace ++ [offset]) warned

/-- The ScanImage fast path of `_seek` (lines 1691-1735): read one tag count
and one next-offset, then synthesize every remaining offset arithmetically
from the single measured gap.  On a corrupt tag list the caught exception is
re-raised (`raise` at line 1707). -/
def seekScanimage (tiff : TiffFormatDesc) (fh : FileH)
    (pages : List Int) (offset : Int) (npo : Option Int) : SeekResult :=
  match readTagno tiff fh offset with
  | none => ⟨⟨pages.dropLast, true, npo⟩, [offset], true, some .structError⟩
  | some tagno =>
      if 4096 < tagno then
        ⟨⟨pages.dropLast, true, npo⟩, [offset], true,
          some (.tiffFileError "suspicious number of tags")⟩
      else
        let npo' : Int := offset + (tiff.tagnosize : Int) + (tagno : Int) * (tiff.tagsize : Int)
        match readIfdOffset tiff fh npo' with
        | none => ⟨⟨pages, false, some npo'⟩, [offset], false, some .structError⟩
        | some nxt =>
            let offsetUnit : Int := (nxt : Int) - offset
            if offsetUnit = 0 then
              ⟨⟨pages, false, some npo'⟩, [offset], false, some .zeroDivisionError⟩
            else
              let intLenpages : Int := Int.fdiv ((fh.size : Int) - offset) offsetUnit
              let newPages := ((List.range intLenpages.toNat).drop 1).map
                  (fun i => offset + offsetUnit * (i : Int))
              ⟨⟨pages ++ newPages, true, some npo'⟩, [offset], false, none⟩

/-- The common tail of `_seek` after the walk: propagate a raised exception,
else run `if index >= lenpages: raise IndexError` and `page = pages[index]`
(lines 1780-1785).  `lenForCheck` is the value of the local `lenpages` at
that point: the up-to-date slot count after the regular walk, but the STALE
pre-extension count after the ScanImage branch (which never updates it). -/
def seekFinish (index : Int) (lenForCheck : Nat) (r : SeekResult) : SeekResult :=
  match r.err with
  | some _ => r
  | none =>
      if (lenForCheck : Int) ≤ index then
        ⟨r.st, r.trace, r.warned, some (.indexError "index out of range")⟩
      else
        match pyGet r.st.pages index with
        | some _ => ⟨r.st, r.trace, r.warned, none⟩
        | none => ⟨r.st, r.trace, r.warned, some (.indexError "list index out of range")⟩

/-- `TiffPages._seek(index, maxpages)` (lines 1663-1785).  On the fast path
(`_indexed` or an already-known slot index) no chain headers are read. -/
def seek (tiff : TiffFormatDesc) (isScanimage : Bool) (fh : FileH)
    (st : PagesState) (index : Int) (maxpages : Option Nat) : SeekResult :=
  let lenpages := st.pages.length
  if lenpages = 0 then ⟨st, [], false, some (.indexError "index out of range")⟩
  else if st.indexed ∨ (0 ≤ index ∧ index < (lenpages : Int)) then
    match pyGet st.pages index with
    | some _ => ⟨st, [], false, none⟩
    | none => ⟨st, [], false, some (.indexError "list index out of range")⟩
  else
    let offset := st.pages.getLastD 0
    if isScanimage then
      seekFinish index lenpages (seekScanimage tiff fh st.pages offset st.nextpageoffset)
    else
      let mp := maxpages.getD (2 ^ 22)
      let r := seekLoop tiff fh index (mp - lenpages) st.pages offset st.nextpageoffset [] false
      seekFinish index r.st.pages.length r

/-- `TiffPages.__len__` (lines 1903-1907): `_seek(-1)` if not yet indexed,
then the slot count.  Returns the seek result (for its error/trace) together
with `len(self.pages)`. -/
def pagesLen (tiff : TiffFormatDesc) (isScanimage : Bool) (fh : FileH)
    (st : PagesState) : SeekResult × Nat :=
  if st.indexed then (⟨st, [], false, none⟩, st.pages.length)
  else
    let r := seek tiff isScanimage fh st (-1) none
    (r, r.st.pages.length)

theorem pyGet_of_lt (l : List Int) (i : Int) (h0 : 0 ≤ i) (h1 : i < l.length) :
    (pyGet l i).isSome := by
  unfold pyGet
  rw [if_pos h0]
  have hlt : i.toNat < l.length := by omega
  simp [List.get?_eq_getElem?, List.getElem?_eq_getElem hlt]

theorem pyGet_neg_one (l : List Int) (h : l ≠ []) : (pyGet l (-1)).isSome := by
  unfold pyGet
  have hl : 0 < l.length := List.length_pos.mpr h
  rw [if_neg (by omega), if_pos (by omega)]
  have hlt : ((-1 : Int) + l.length).toNat < l.length := by omega
  simp [List.get?_eq_getElem?, List.getElem?_eq_getElem hlt]

/-- `seekFinish` on an error-free walk result with an in-range (or negative,
in-range-from-the-end) index adds nothing. -/
theorem seekFinish_none (index : Int) (lfc : Nat) (r : SeekResult) (hr : r.err = none)
    (hneg : ¬((lfc : Int) ≤ index)) (hpg : (pyGet r.st.pages index).isSome) :
    seekFinish index lfc r = ⟨r.st, r.trace, r.warned, none⟩ := by
  obtain ⟨x, hx⟩ := Option.isSome_iff_exists.mp hpg
  rcases r with ⟨rst, rtr, rw', re⟩
  simp only at hr hx ⊢
  subst hr
  simp only [seekFinish]
  rw [if_neg hneg, hx]

/-- Special case of `seekFinish_none` for the full-walk index `-1`. -/
theorem seekFinish_neg_one (lfc : Nat) (pst : PagesState) (tr : List Int) (w : Bool)
    (hpg : pst.pages ≠ []) :
    seekFinish (-1) lfc ⟨pst, tr, w, none⟩ = ⟨pst, tr, w, none⟩ := by
  obtain ⟨x, hx⟩ := Option.isSome_iff_exists.mp (pyGet_neg_one pst.pages hpg)
  simp only [seekFinish]
  rw [if_neg (by omega), hx]

/-- C5 amended: when the walk meets a slot whose tag count exceeds 4096,
the regular walk warns, drops the slot, marks the chain indexed and raises
nothing, so prior slots stay resolvable with no further chain reads; the
ScanImage fast path performs the same cleanup but RE-RAISES the error
(fatal), contrary to the claim's "never a fatal error". -/
theorem c5_corrupt_tag_count (tiff : TiffFormatDesc) (fh : FileH) (ps : List Int) (bad : Int)
    (npo : Option Int) (t : Nat) (hread : readTagno tiff fh bad = some t) (ht : 4096 < t)
    (hps : ps ≠ []) (hlen : ps.length + 2 ≤ 2 ^ 22) :
    (seek tiff false fh ⟨ps ++ [bad], false, npo⟩ (-1) none
        = ⟨⟨ps, true, npo⟩, [bad], true, none⟩)
  ∧ (seek tiff true fh ⟨ps ++ [bad], false, npo⟩ (-1) none
        = ⟨⟨ps, true, npo⟩, [bad], true,
            some (PyErr.tiffFileError "suspicious number of tags")⟩)
  ∧ (∀ i : Int, 0 ≤ i → i < ps.length →
      seek tiff false fh ⟨ps, true, npo⟩ i none = ⟨⟨ps, true, npo⟩, [], false, none⟩) := by
  have hlast : (ps ++ [bad]).getLastD 0 = bad := List.getLastD_concat _ _ _
  have hdrop : (ps ++ [bad]).dropLast = ps := List.dropLast_concat
  obtain ⟨f, hf⟩ : ∃ f, 2 ^ 22 - (ps ++ [bad]).length = f + 1 :=
    ⟨2 ^ 22 - (ps.length + 1) - 1, by simp; omega⟩
  rcases hpg : pyGet ps (-1) with _ | x
  · exact absurd (pyGet_neg_one ps hps) (by simp [hpg])
  refine ⟨?_, ?_, ?_⟩
  · simp only [seek, hlast, hf]
    rw [if_neg (by simp), if_neg (by simp)]
    simp only [Option.getD, hf, seekLoop, hread, if_pos ht, hdrop]
    exact seekFinish_neg_one _ ⟨ps, true, npo⟩ _ _ hps
  · simp only [seek, hlast]
    rw [if_neg (by simp), if_neg (by simp)]
    simp [seekScanimage, hread, if_pos ht, hdrop]
    rfl
  · intro i h0 h1
    rcases hpi : pyGet ps i with _ | y
    · exact absurd (pyGet_of_lt ps i h0 h1) (by simp [hpi])
    simp [seek, hpi, hps]

theorem FileH.read_eq_map (fh : FileH) (pos n : Nat) (h : pos + n ≤ fh.size) :
    fh.read pos n = (List.range n).map (fun i => fh.byte (pos + i) % 256) := by
  induction n generalizing pos with
  | zero => simp [read]
  | succ m ih =>
    rw [show fh.read pos (m + 1) =
        (if pos < fh.size then fh.byte pos % 256 :: fh.read (pos + 1) m else []) from rfl,
      if_pos (by omega), ih (pos + 1) (by omega), List.range_succ_eq_map]
    simp only [List.map_cons, List.map_map, Function.comp, Nat.add_zero]
    congr 1
    apply List.map_congr_left
    intro i _
    have harg : pos + 1 + i = pos + (i + 1) := by omega
    simp [Nat.succ_eq_add_one, harg]

/-! ### A 102-directory chain whose directory 101 points back to directory 100
(classic little-endian, 0 tags per directory, 6 bytes per directory record,
directory `k` at offset `8 + 6k`). -/

/-- Offset of directory `k`. -/
def c4off (k : Nat) : Nat := 8 + 6 * k

/-- Stored next-directory offset of directory `k`: the following directory,
except that directory 101 points back to directory 100. -/
def c4next (k : Nat) : Nat := if k = 101 then c4off 100 else c4off (k + 1)

/-- Directory index visited at step `n` of the walk: 0,1,…,101,100,101,100,… -/
def c4dir (n : Nat) : Nat := if n < 100 then n else 100 + (n - 100) % 2

/-- Byte `p` of the cyclic chain file: each 6-byte directory record is a
2-byte zero tag count followed by the 4-byte little-endian next offset. -/
def c4byte (p : Nat) : Nat :=
  if p < 8 then 0
  else
    let q := p - 8
    if 101 < q / 6 then 0
    else if q % 6 < 2 then 0
    else c4next (q / 6) / 256 ^ (q % 6 - 2) % 256

def c4file : FileH := ⟨620, c4byte⟩

theorem c4byte_eval (k r : Nat) (hk : k ≤ 101) (hr : r < 6) :
    c4byte (8 + 6 * k + r) = if r < 2 then 0 else c4next k / 256 ^ (r - 2) % 256 := by
  have hq : 8 + 6 * k + r - 8 = 6 * k + r := by omega
  have hdiv : (6 * k + r) / 6 = k := by omega
  have hmod : (6 * k + r) % 6 = r := by omega
  simp only [c4byte, hq, hdiv, hmod]
  rw [if_neg (by omega), if_neg (by omega)]

theorem c4next_le (k : Nat) (hk : k ≤ 101) : 14 ≤ c4next k ∧ c4next k ≤ 614 := by
  unfold c4next c4off
  split_ifs <;> omega

theorem c4_readTagno (k : Nat) (hk : k ≤ 101) :
    readTagno CLASSIC_LE c4file ((c4off k : Nat) : Int) = some 0 := by
  unfold readTagno
  rw [if_neg (by omega), Int.toNat_natCast]
  have hsz : c4off k + 2 ≤ c4file.size := by unfold c4off c4file; simp; omega
  rw [show CLASSIC_LE.tagnosize = 2 from rfl, FileH.read_eq_map c4file (c4off k) 2 hsz]
  rw [show List.range 2 = [0, 1] from rfl]
  simp only [List.map_cons, List.map_nil]
  have h0 : c4file.byte (c4off k + 0) = 0 := by
    show c4byte (c4off k + 0) = 0
    have h := c4byte_eval k 0 hk (by omega)
    rw [show (8 : Nat) + 6 * k + 0 = c4off k + 0 from by unfold c4off; omega] at h
    rw [h, if_pos (by omega)]
  have h1 : c4file.byte (c4off k + 1) = 0 := by
    show c4byte (c4off k + 1) = 0
    have h := c4byte_eval k 1 hk (by omega)
    rw [show (8 : Nat) + 6 * k + 1 = c4off k + 1 from by unfold c4off; omega] at h
    rw [h, if_pos (by omega)]
  rw [h0, h1]
  rfl

theorem c4_readNext (k : Nat) (hk : k ≤ 101) :
    readIfdOffset CLASSIC_LE c4file (((c4off k : Nat) : Int) + 2) = some (c4next k) := by
  unfold readIfdOffset
  rw [if_neg (by omega)]
  have htn : (((c4off k : Nat) : Int) + 2).toNat = c4off k + 2 := by omega
  rw [htn]
  have hsz : c4off k + 2 + 4 ≤ c4file.size := by unfold c4off c4file; simp; omega
  rw [show CLASSIC_LE.ifdoffsetsize = 4 from rfl, FileH.read_eq_map c4file (c4off k + 2) 4 hsz]
  have hb : ∀ i, i < 4 → c4file.byte (c4off k + 2 + i) = c4next k / 256 ^ i % 256 := by
    intro i hi
    show c4byte (c4off k + 2 + i) = c4next k / 256 ^ i % 256
    have h := c4byte_eval k (2 + i) hk (by omega)
    rw [show (8 : Nat) + 6 * k + (2 + i) = c4off k + 2 + i from by unfold c4off; omega,
      show 2 + i - 2 = i from by omega] at h
    rw [h, if_neg (by omega)]
  rw [show List.range 4 = [0, 1, 2, 3] from rfl]
  simp only [List.map_cons, List.map_nil]
  rw [hb 0 (by omega), hb 1 (by omega), hb 2 (by omega), hb 3 (by omega)]
  have hle := c4next_le k hk
  have e2 : (256 : Nat) ^ 2 = 65536 := by norm_num
  have e3 : (256 : Nat) ^ 3 = 16777216 := by norm_num
  have hpack : ([c4next k / 256 ^ 0 % 256 % 256, c4next k / 256 ^ 1 % 256 % 256,
      c4next k / 256 ^ 2 % 256 % 256, c4next k / 256 ^ 3 % 256 % 256] : List Nat)
      = packUInt true 4 (c4next k) := by
    simp only [packUInt, if_true, pow_zero, pow_one, e2, e3]
    simp only [List.cons.injEq, and_true]
    refine ⟨by omega, by omega, by omega, by omega⟩
  rw [show CLASSIC_LE.byteorderLE = true from rfl, hpack,
    unpackUInt_packUInt_of_lt true (show c4next k < 256 ^ 4 by norm_num; omega)]

theorem c4_next_dir (n : Nat) : c4next (c4dir n) = c4off (c4dir (n + 1)) := by
  unfold c4next c4dir c4off
  split_ifs <;> omega

theorem c4dir_le (n : Nat) : c4dir n ≤ 101 := by
  unfold c4dir; split_ifs <;> omega

theorem c4_range_succ (n : Nat) :
    (List.range (n + 1)).map (fun i => ((c4off (c4dir i) : Nat) : Int))
        ++ [((c4off (c4dir (n + 1)) : Nat) : Int)]
      = (List.range (n + 2)).map (fun i => ((c4off (c4dir i) : Nat) : Int)) := by
  rw [List.range_succ (n := n + 1), List.map_append]
  rfl

theorem c4_no_repeat_at_99 :
    ((c4off (c4dir 99) : Nat) : Int) ∉
      (List.range 99).map (fun i => ((c4off (c4dir i) : Nat) : Int)) := by
  intro hmem
  simp only [List.mem_map, List.mem_range] at hmem
  obtain ⟨i, hi, heq⟩ := hmem
  have h : c4off (c4dir i) = c4off (c4dir 99) := by exact_mod_cast heq
  unfold c4off c4dir at h
  rw [if_pos (show i < 100 by omega), if_pos (show (99 : Nat) < 100 by omega)] at h
  omega

/-- The walk over the cyclic chain never raises: once the slot count has
passed 100 the repeated-offset check (which runs only when the count is
exactly 100) is never executed again. -/
theorem c4_loop_no_error :
    ∀ (fuel n : Nat) (npo : Option Int) (tr : List Int) (w : Bool),
      (seekLoop CLASSIC_LE c4file (-1) fuel
          ((List.range (n + 1)).map (fun i => ((c4off (c4dir i) : Nat) : Int)))
          ((c4off (c4dir n) : Nat) : Int) npo tr w).err = none ∧
      (seekLoop CLASSIC_LE c4file (-1) fuel
          ((List.range (n + 1)).map (fun i => ((c4off (c4dir i) : Nat) : Int)))
          ((c4off (c4dir n) : Nat) : Int) npo tr w).st.pages ≠ [] := by
  intro fuel
  induction fuel with
  | zero =>
    intro n npo tr w
    constructor
    · rfl
    · simp [seekLoop]
  | succ fuel ih =>
    intro n npo tr w
    have hd := c4dir_le n
    have h1 := c4_readTagno (c4dir n) hd
    have h2 := c4_readNext (c4dir n) hd
    have hnd := c4_next_dir n
    have hle := c4next_le (c4dir n) hd
    simp only [seekLoop, h1]
    rw [if_neg (by norm_num)]
    have hnp : ((c4off (c4dir n) : Nat) : Int) + (CLASSIC_LE.tagnosize : Int)
        + ((0 : Nat) : Int) * (CLASSIC_LE.tagsize : Int)
        = ((c4off (c4dir n) : Nat) : Int) + 2 := by
      norm_num [CLASSIC_LE]
    simp only [hnp, h2]
    rw [if_neg (show ¬(c4next (c4dir n) = 0) by omega)]
    rw [if_neg (show ¬(c4file.size ≤ c4next (c4dir n)) by
      show ¬((620 : Nat) ≤ c4next (c4dir n)); omega)]
    rw [if_neg (show ¬((0 : Int) ≤ -1 ∧ (-1 : Int) <
        ((((List.range (n + 1)).map (fun i => ((c4off (c4dir i) : Nat) : Int))
          ++ [((c4next (c4dir n) : Nat) : Int)]).length : Nat) : Int)) by simp)]
    have hcond : ¬(((List.range (n + 1)).map (fun i => ((c4off (c4dir i) : Nat) : Int))
          ++ [((c4next (c4dir n) : Nat) : Int)]).length = 100 ∧
        ((c4next (c4dir n) : Nat) : Int)
          ∈ ((List.range (n + 1)).map (fun i => ((c4off (c4dir i) : Nat) : Int))
          ++ [((c4next (c4dir n) : Nat) : Int)]).dropLast) := by
      rintro ⟨hl, hmem⟩
      rw [List.dropLast_concat] at hmem
      have hn98 : n = 98 := by
        rw [List.length_append, List.length_map, List.length_range] at hl
        simp at hl
        omega
      subst hn98
      rw [hnd] at hmem
      exact c4_no_repeat_at_99 hmem
    rw [if_neg hcond]
    rw [hnd, c4_range_succ n]
    exact ih (n + 1) _ _ _

set_option maxRecDepth 8000

/-- On a non-indexed state with no cached slot for `index`, `_seek` without
the ScanImage fast path is exactly the forward walk followed by the final
index bookkeeping. -/
theorem seek_eq_loop (tiff : TiffFormatDesc) (fh : FileH) (st : PagesState) (index : Int)
    (mopt : Option Nat) (hps : st.pages ≠ []) (hix : st.indexed = false)
    (hfast : ¬(0 ≤ index ∧ index < (st.pages.length : Int))) :
    seek tiff false fh st index mopt =
      seekFinish index
        (seekLoop tiff fh index (mopt.getD (2 ^ 22) - st.pages.length) st.pages
          (st.pages.getLastD 0) st.nextpageoffset [] false).st.pages.length
        (seekLoop tiff fh index (mopt.getD (2 ^ 22) - st.pages.length) st.pages
          (st.pages.getLastD 0) st.nextpageoffset [] false) := by
  have h1 : ¬(st.pages.length = 0) := by simpa [List.length_eq_zero] using hps
  have h2 : ¬(st.indexed = true ∨ (0 ≤ index ∧ index < (st.pages.length : Int))) := by
    rw [hix]
    simpa using hfast
  simp only [seek]
  rw [if_neg h1, if_neg h2]
  simp only [Bool.false_eq_true, if_false]

/-- C4 counterexample: in this chain directory 101's next-offset points back
to the already-visited directory 100 (`j = 100 < k = 101`), yet the full walk
with the default `maxpages` budget finishes without raising any error: the
repeated offset is appended after the slot count has passed 100, where the
circular-reference check no longer runs. -/
theorem c4_late_cycle_undetected :
    readIfdOffset CLASSIC_LE c4file (((c4off 101 : Nat) : Int) + 2) = some (c4off 100)
  ∧ (seek CLASSIC_LE false c4file ⟨[((c4off 0 : Nat) : Int)], false, none⟩ (-1) none).err
      = none := by
  constructor
  · have h := c4_readNext 101 (le_refl 101)
    rwa [show c4next 101 = c4off 100 from rfl] at h
  · obtain ⟨he, hpg⟩ := c4_loop_no_error (2 ^ 22 - 1) 0 none [] false
    rw [show (List.range (0 + 1)).map (fun i => ((c4off (c4dir i) : Nat) : Int))
          = [((c4off 0 : Nat) : Int)] from rfl,
        show ((c4off (c4dir 0) : Nat) : Int) = ((c4off 0 : Nat) : Int) from rfl] at he hpg
    rw [seek_eq_loop CLASSIC_LE c4file ⟨[((c4off 0 : Nat) : Int)], false, none⟩ (-1) none
        (by simp) rfl (by simp)]
    dsimp only [Option.getD]
    rw [show ([((c4off 0 : Nat) : Int)] : List Int).getLastD 0 = ((c4off 0 : Nat) : Int)
          from rfl]
    rw [show (2 ^ 22 : Nat) - ([((c4off 0 : Nat) : Int)] : List Int).length = 2 ^ 22 - 1
          from rfl]
    rw [seekFinish_none (-1) _ _ he (by omega) (pyGet_neg_one _ hpg)]

/-- C4 amended: during a full walk (`index = -1`), a newly discovered
next-directory offset is compared against the previously seen ones ONLY at
the single step where the slot count reaches exactly 100: there a repeat
raises `TiffFileError` (the fatal structural error); at every other step the
walk simply continues, so a repeat is never examined. -/
theorem c4_threshold_check (tiff : TiffFormatDesc) (fh : FileH) (fuel : Nat)
    (pages : List Int) (offset : Int) (npo : Option Int) (tr : List Int) (w : Bool)
    (t nxt : Nat) (hrt : readTagno tiff fh offset = some t) (ht : t ≤ 4096)
    (hro : readIfdOffset tiff fh
        (offset + (tiff.tagnosize : Int) + (t : Int) * (tiff.tagsize : Int)) = some nxt)
    (hn0 : nxt ≠ 0) (hns : nxt < fh.size) :
    (pages.length = 99 → (nxt : Int) ∈ pages →
      seekLoop tiff fh (-1) (fuel + 1) pages offset npo tr w
        = ⟨⟨pages ++ [(nxt : Int)], false,
            some (offset + (tiff.tagnosize : Int) + (t : Int) * (tiff.tagsize : Int))⟩,
            tr ++ [offset], w, some (.tiffFileError "invalid circular IFD reference")⟩)
  ∧ (pages.length ≠ 99 →
      seekLoop tiff fh (-1) (fuel + 1) pages offset npo tr w
        = seekLoop tiff fh (-1) fuel (pages ++ [(nxt : Int)]) nxt
            (some (offset + (tiff.tagnosize : Int) + (t : Int) * (tiff.tagsize : Int)))
            (tr ++ [offset]) w) := by
  constructor
  · intro hl hm
    simp only [seekLoop, hrt]
    rw [if_neg (by omega)]
    simp only [hro]
    rw [if_neg hn0, if_neg (by omega), if_neg (by simp)]
    rw [if_pos (by
      constructor
      · simp [hl]
      · rw [List.dropLast_concat]; exact hm)]
  · intro hl
    simp only [seekLoop, hrt]
    rw [if_neg (by omega)]
    simp only [hro]
    rw [if_neg hn0, if_neg (by omega), if_neg (by simp)]
    rw [if_neg (by
      rintro ⟨h100, _⟩
      rw [List.length_append, List.length_cons, List.length_nil] at h100
      omega)]

/-- A two-directory chain that cycles immediately: directory 0 at offset 8
points to directory 1 at offset 14, which points back to offset 8. -/
def c4small : FileH :=
  FileH.ofList [0, 0, 0, 0, 0, 0, 0, 0, 0, 0, 14, 0, 0, 0, 0, 0, 8, 0, 0, 0]

/-- Witness for C4 at the two-directory cycle file: with 99 slots already
seen the repeated offset raises; with any other count the step just
recurses. -/
theorem c4_threshold_check_witness :
    ((List.replicate 99 (14 : Int)).length = 99
      ∧ ((14 : Nat) : Int) ∈ List.replicate 99 (14 : Int)
      ∧ seekLoop CLASSIC_LE c4small (-1) (0 + 1) (List.replicate 99 (14 : Int)) 8 none [] false
          = ⟨⟨List.replicate 99 (14 : Int) ++ [((14 : Nat) : Int)], false,
              some (8 + (CLASSIC_LE.tagnosize : Int)
                + ((0 : Nat) : Int) * (CLASSIC_LE.tagsize : Int))⟩,
              [] ++ [8], false, some (.tiffFileError "invalid circular IFD reference")⟩)
  ∧ (([(8 : Int)].length ≠ 99)
      ∧ seekLoop CLASSIC_LE c4small (-1) (0 + 1) [(8 : Int)] 8 none [] false
          = seekLoop CLASSIC_LE c4small (-1) 0 ([(8 : Int)] ++ [((14 : Nat) : Int)]) 14
              (some (8 + (CLASSIC_LE.tagnosize : Int)
                + ((0 : Nat) : Int) * (CLASSIC_LE.tagsize : Int)))
              ([] ++ [8]) false) := by
  constructor
  · refine ⟨by simp, by simp, ?_⟩
    exact (c4_threshold_check CLASSIC_LE c4small 0 (List.replicate 99 (14 : Int)) 8 none []
      false 0 14 rfl (by decide) rfl (by decide) (by decide)).1 (by simp) (by simp)
  · refine ⟨by decide, ?_⟩
    exact (c4_threshold_check CLASSIC_LE c4small 0 [(8 : Int)] 8 none []
      false 0 14 rfl (by decide) rfl (by decide) (by decide)).2 (by decide)

/-- C5 counterexample: a ScanImage walk that meets a slot with tag count
5000 (> 4096) raises `TiffFileError` — a fatal error, with the warning also
logged — instead of merely ending the chain. -/
theorem c5_scanimage_corrupt_is_fatal :
    (seek CLASSIC_LE true (FileH.ofList (List.replicate 20 0 ++ [136, 19]))
        ⟨[8, 20], false, none⟩ (-1) none).err
      = some (PyErr.tiffFileError "suspicious number of tags")
  ∧ (seek CLASSIC_LE true (FileH.ofList (List.replicate 20 0 ++ [136, 19]))
        ⟨[8, 20], false, none⟩ (-1) none).warned = true := by
  constructor <;> rfl

/-! ### Well-formed chains (for C6) -/

/-- A well-formed chain of `N = chain.length` directories: all offsets
nonzero, inside the file, pairwise distinct, with readable headers whose tag
counts respect the ceiling, each next-offset pointing at the next directory
and the last one storing 0 (`chain.getD N 0 = 0`). -/
def wfChain (tiff : TiffFormatDesc) (fh : FileH) (chain : List Nat) : Prop :=
  chain ≠ [] ∧ chain.Nodup ∧ chain.length < 2 ^ 22 ∧
  ∀ i, i < chain.length →
    0 < chain.getD i 0 ∧ chain.getD i 0 < fh.size ∧
    ∃ t, t ≤ 4096 ∧
      readTagno tiff fh ((chain.getD i 0 : Nat) : Int) = some t ∧
      readIfdOffset tiff fh (((chain.getD i 0 : Nat) : Int) + (tiff.tagnosize : Int)
        + (t : Int) * (tiff.tagsize : Int)) = some (chain.getD (i + 1) 0)

/-- The slot list corresponding to the first `m` chain offsets. -/
def chainPages (chain : List Nat) (m : Nat) : List Int :=
  (chain.take m).map (fun x : Nat => (x : Int))

theorem chainPages_length (chain : List Nat) (m : Nat) (hm : m ≤ chain.length) :
    (chainPages chain m).length = m := by
  unfold chainPages
  rw [List.length_map, List.length_take]
  omega

theorem chain_getD_mem (chain : List Nat) (m : Nat) (hm : m < chain.length) :
    chain.getD m 0 = chain[m] := by
  simp [List.getD_eq_getElem?_getD, List.getElem?_eq_getElem hm]

theorem chainPages_succ (chain : List Nat) (m : Nat) (hm : m < chain.length) :
    chainPages chain (m + 1) = chainPages chain m ++ [((chain.getD m 0 : Nat) : Int)] := by
  unfold chainPages
  rw [List.take_succ, List.getElem?_eq_getElem hm, Option.toList_some, List.map_append,
    List.map_cons, List.map_nil, chain_getD_mem chain m hm]

theorem chainPages_not_mem (chain : List Nat) (hnd : chain.Nodup) (m : Nat)
    (hm : m < chain.length) :
    ((chain.getD m 0 : Nat) : Int) ∉ chainPages chain m := by
  intro hmem
  unfold chainPages at hmem
  rw [List.mem_map] at hmem
  obtain ⟨x, hx, hcast⟩ := hmem
  have hxeq : x = chain.getD m 0 := by exact_mod_cast hcast
  subst hxeq
  rw [chain_getD_mem chain m hm] at hx
  obtain ⟨j, hj, hjx⟩ := List.mem_take_iff_getElem.mp hx
  have hjm : j = m := (List.Nodup.getElem_inj_iff hnd).mp hjx
  omega

theorem chain_drop_cons (chain : List Nat) (m : Nat) (hm : m < chain.length) :
    chain.drop m = chain.getD m 0 :: chain.drop (m + 1) := by
  rw [List.drop_eq_getElem_cons hm, chain_getD_mem chain m hm]

theorem chainPages_one (chain : List Nat) (h : chain ≠ []) :
    chainPages chain 1 = [((chain.getD 0 0 : Nat) : Int)] := by
  rcases chain with _ | ⟨a, l⟩
  · exact absurd rfl h
  · rfl

/-- Full walk over a well-formed chain: starting at slot `m-1` with the first
`m` offsets known, the loop visits every remaining slot exactly once (in
order), discovers the terminating 0 and ends indexed with no error. -/
theorem seekLoop_wf_full (tiff : TiffFormatDesc) (fh : FileH) (chain : List Nat)
    (hwf : wfChain tiff fh chain) :
    ∀ (fuel m : Nat) (npo : Option Int) (tr : List Int) (w : Bool),
      1 ≤ m → m ≤ chain.length → chain.length - m + 1 ≤ fuel →
      ∃ npo' : Int,
        seekLoop tiff fh (-1) fuel (chainPages chain m)
            ((chain.getD (m - 1) 0 : Nat) : Int) npo tr w
          = ⟨⟨chainPages chain chain.length, true, some npo'⟩,
              tr ++ ((chain.drop (m - 1)).map (fun x : Nat => (x : Int))), w, none⟩ := by
  obtain ⟨hne, hnd, hbound, hslot⟩ := hwf
  intro fuel
  induction fuel with
  | zero => intro m npo tr w h1 h2 h3; omega
  | succ fuel ih =>
    intro m npo tr w h1 h2 h3
    have hm1 : m - 1 < chain.length := by omega
    obtain ⟨-, -, t, ht, hrt, hro⟩ := hslot (m - 1) hm1
    rw [show m - 1 + 1 = m from by omega] at hro
    simp only [seekLoop, hrt]
    rw [if_neg (by omega)]
    simp only [hro]
    by_cases hend : m = chain.length
    · -- the stored next-offset of the last directory is 0
      have hz : chain.getD m 0 = 0 := by
        rw [List.getD_eq_default]
        omega
      rw [if_pos hz]
      refine ⟨((chain.getD (m - 1) 0 : Nat) : Int) + (tiff.tagnosize : Int)
        + (t : Int) * (tiff.tagsize : Int), ?_⟩
      rw [chain_drop_cons chain (m - 1) hm1, show m - 1 + 1 = m from by omega, hend,
        List.drop_length]
      rfl
    · -- an interior slot: append the next offset and continue
      obtain ⟨hpos, hlt, -⟩ := hslot m (by omega)
      rw [if_neg (by omega), if_neg (by omega), if_neg (by simp)]
      rw [← chainPages_succ chain m (by omega)]
      have hcond : ¬((chainPages chain (m + 1)).length = 100 ∧
          ((chain.getD m 0 : Nat) : Int) ∈ (chainPages chain (m + 1)).dropLast) := by
        rintro ⟨-, hmem⟩
        rw [chainPages_succ chain m (by omega), List.dropLast_concat] at hmem
        exact chainPages_not_mem chain hnd m (by omega) hmem
      rw [if_neg hcond]
      obtain ⟨npo', hrec⟩ := ih (m + 1) (some _) (tr ++ [((chain.getD (m - 1) 0 : Nat) : Int)])
        w (by omega) (by omega) (by omega)
      rw [show m + 1 - 1 = m from by omega] at hrec
      refine ⟨npo', ?_⟩
      rw [hrec, List.append_assoc]
      rw [chain_drop_cons chain (m - 1) hm1, show m - 1 + 1 = m from by omega]
      rfl

/-- Partial walk to a requested index `k` inside a well-formed chain: the
loop visits slots `m-1 … k-1`, appends up to slot `k` and stops unindexed
with no error. -/
theorem seekLoop_wf_partial (tiff : TiffFormatDesc) (fh : FileH) (chain : List Nat)
    (hwf : wfChain tiff fh chain) :
    ∀ (fuel m k : Nat) (npo : Option Int) (tr : List Int) (w : Bool),
      1 ≤ m → m ≤ k → k < chain.length → k - m + 1 ≤ fuel →
      ∃ npo' : Int,
        seekLoop tiff fh (k : Int) fuel (chainPages chain m)
            ((chain.getD (m - 1) 0 : Nat) : Int) npo tr w
          = ⟨⟨chainPages chain (k + 1), false, some npo'⟩,
              tr ++ (((chain.drop (m - 1)).take (k - m + 1)).map (fun x : Nat => (x : Int))),
              w, none⟩ := by
  obtain ⟨hne, hnd, hbound, hslot⟩ := hwf
  intro fuel
  induction fuel with
  | zero => intro m k npo tr w h1 h2 h3 h4; omega
  | succ fuel ih =>
    intro m k npo tr w h1 h2 h3 h4
    have hm1 : m - 1 < chain.length := by omega
    obtain ⟨-, -, t, ht, hrt, hro⟩ := hslot (m - 1) hm1
    rw [show m - 1 + 1 = m from by omega] at hro
    simp only [seekLoop, hrt]
    rw [if_neg (by omega)]
    simp only [hro]
    obtain ⟨hpos, hlt, -⟩ := hslot m (by omega)
    rw [if_neg (by omega), if_neg (by omega)]
    rw [← chainPages_succ chain m (by omega)]
    by_cases hmk : m = k
    · -- the requested slot has just been appended: break
      rw [if_pos (by
        refine ⟨by omega, ?_⟩
        rw [chainPages_length chain (m + 1) (by omega)]
        omega)]
      refine ⟨((chain.getD (m - 1) 0 : Nat) : Int) + (tiff.tagnosize : Int)
        + (t : Int) * (tiff.tagsize : Int), ?_⟩
      subst hmk
      rw [chain_drop_cons chain (m - 1) hm1, show m - m + 1 = 1 from by omega]
      rfl
    · rw [if_neg (by
        rintro ⟨-, habs⟩
        rw [chainPages_length chain (m + 1) (by omega)] at habs
        omega)]
      have hcond : ¬((chainPages chain (m + 1)).length = 100 ∧
          ((chain.getD m 0 : Nat) : Int) ∈ (chainPages chain (m + 1)).dropLast) := by
        rintro ⟨-, hmem⟩
        rw [chainPages_succ chain m (by omega), List.dropLast_concat] at hmem
        exact chainPages_not_mem chain hnd m (by omega) hmem
      rw [if_neg hcond]
      obtain ⟨npo', hrec⟩ := ih (m + 1) k (some _)
        (tr ++ [((chain.getD (m - 1) 0 : Nat) : Int)]) w (by omega) (by omega) h3 (by omega)
      rw [show m + 1 - 1 = m from by omega] at hrec
      refine ⟨npo', ?_⟩
      rw [hrec, List.append_assoc]
      rw [chain_drop_cons chain (m - 1) hm1, show m - 1 + 1 = m from by omega,
        show k - m + 1 = (k - (m + 1) + 1) + 1 from by omega, List.take_succ_cons,
        List.map_cons]
      rfl

theorem chainPages_getLastD (chain : List Nat) (L : Nat) (h1 : 1 ≤ L)
    (h2 : L ≤ chain.length) :
    (chainPages chain L).getLastD 0 = ((chain.getD (L - 1) 0 : Nat) : Int) := by
  have hLsub : chainPages chain L
      = chainPages chain (L - 1) ++ [((chain.getD (L - 1) 0 : Nat) : Int)] := by
    rw [← chainPages_succ chain (L - 1) (by omega), show L - 1 + 1 = L from by omega]
  rw [hLsub, List.getLastD_concat]

/-- One `_seek(k)` call on a chain state with the first `L` slots known:
an already-known slot resolves with no reads at all; an unknown one extends
the walk forward from slot `L-1`, reading each intervening header once. -/
theorem seek_wf_resolve (tiff : TiffFormatDesc) (fh : FileH) (chain : List Nat)
    (hwf : wfChain tiff fh chain) (L : Nat) (npo : Option Int)
    (hL1 : 1 ≤ L) (hLN : L ≤ chain.length) (k : Nat) (hk : k < chain.length) :
    (k < L →
      seek tiff false fh ⟨chainPages chain L, false, npo⟩ (k : Int) none
        = ⟨⟨chainPages chain L, false, npo⟩, [], false, none⟩)
  ∧ (L ≤ k →
      ∃ npo' : Int,
        seek tiff false fh ⟨chainPages chain L, false, npo⟩ (k : Int) none
          = ⟨⟨chainPages chain (k + 1), false, some npo'⟩,
              ((chain.drop (L - 1)).take (k - L + 1)).map (fun x : Nat => (x : Int)),
              false, none⟩) := by
  have hlen := chainPages_length chain L hLN
  constructor
  · intro hkL
    obtain ⟨x, hx⟩ := Option.isSome_iff_exists.mp
      (pyGet_of_lt (chainPages chain L) (k : Int) (by omega) (by rw [hlen]; exact_mod_cast hkL))
    simp only [seek, hlen]
    rw [if_neg (by omega), if_pos (Or.inr ⟨by omega, by exact_mod_cast hkL⟩), hx]
  · intro hLk
    rw [seek_eq_loop tiff fh ⟨chainPages chain L, false, npo⟩ (k : Int) none
      (by
        intro habs
        simp only at habs
        rw [habs] at hlen
        simp at hlen
        omega)
      rfl
      (by
        simp only [hlen]
        omega)]
    have hN : chain.length < 2 ^ 22 := hwf.2.2.1
    obtain ⟨npo', hpart⟩ := seekLoop_wf_partial tiff fh chain hwf (2 ^ 22 - L) L k npo []
      false hL1 hLk hk (by omega)
    simp only
    rw [show (none : Option Nat).getD (2 ^ 22) = 2 ^ 22 from rfl, hlen,
      chainPages_getLastD chain L hL1 hLN, hpart]
    simp only
    rw [chainPages_length chain (k + 1) (by omega)]
    rw [seekFinish_none (k : Int) (k + 1) _ rfl (by omega)
      (pyGet_of_lt _ (k : Int) (by omega)
        (by rw [chainPages_length chain (k + 1) (by omega)]; omega))]
    refine ⟨npo', ?_⟩
    simp

/-- A full walk (`_seek(-1)`) from a chain state with the first `L` slots
known: all remaining headers are read once, in order, and the chain ends
indexed with no error. -/
theorem seek_wf_neg_one (tiff : TiffFormatDesc) (fh : FileH) (chain : List Nat)
    (hwf : wfChain tiff fh chain) (L : Nat) (npo : Option Int)
    (hL1 : 1 ≤ L) (hLN : L ≤ chain.length) :
    ∃ npo' : Int,
      seek tiff false fh ⟨chainPages chain L, false, npo⟩ (-1) none
        = ⟨⟨chainPages chain chain.length, true, some npo'⟩,
            (chain.drop (L - 1)).map (fun x : Nat => (x : Int)), false, none⟩ := by
  have hlen := chainPages_length chain L hLN
  have hN : chain.length < 2 ^ 22 := hwf.2.2.1
  rw [seek_eq_loop tiff fh ⟨chainPages chain L, false, npo⟩ (-1) none
    (by
      intro habs
      simp only at habs
      rw [habs] at hlen
      simp at hlen
      omega)
    rfl (by simp)]
  obtain ⟨npo', hfull⟩ := seekLoop_wf_full tiff fh chain hwf (2 ^ 22 - L) L npo [] false
    hL1 hLN (by omega)
  simp only
  rw [show (none : Option Nat).getD (2 ^ 22) = 2 ^ 22 from rfl, hlen,
    chainPages_getLastD chain L hL1 hLN, hfull]
  simp only
  rw [seekFinish_none (-1) _ _ rfl (by omega)
    (pyGet_neg_one _ (by
      intro habs
      simp only at habs
      have := chainPages_length chain chain.length (le_refl _)
      rw [habs] at this
      simp at this
      omega))]
  exact ⟨npo', by simp⟩

/-- Resolve a sequence of page indices through `_seek` (the chain-walking
part of `_getitem`), threading the `TiffPages` state; returns the final
state, the concatenation of all walk read-traces, and whether any call
raised. -/
def seekMany (tiff : TiffFormatDesc) (isScan : Bool) (fh : FileH) :
    List Int → PagesState → PagesState × List Int × Bool
  | [], st => (st, [], false)
  | i :: is, st =>
      let r := seek tiff isScan fh st i none
      let rest := seekMany tiff isScan fh is r.st
      (rest.1, r.trace ++ rest.2.1, rest.2.2 || r.err.isSome)

theorem seekMany_wf (tiff : TiffFormatDesc) (fh : FileH) (chain : List Nat)
    (hwf : wfChain tiff fh chain) :
    ∀ (idxs : List Int) (L : Nat) (npo : Option Int),
      (∀ i ∈ idxs, 0 ≤ i ∧ i < (chain.length : Int)) → 1 ≤ L → L ≤ chain.length →
      ∃ (L' : Nat) (npo' : Option Int), L ≤ L' ∧ L' ≤ chain.length ∧
        seekMany tiff false fh idxs ⟨chainPages chain L, false, npo⟩
          = (⟨chainPages chain L', false, npo'⟩,
             ((chain.drop (L - 1)).take (L' - L)).map (fun x : Nat => (x : Int)), false) := by
  intro idxs
  induction idxs with
  | nil =>
    intro L npo hv h1 h2
    exact ⟨L, npo, le_refl L, h2, by simp [seekMany]⟩
  | cons i is ih =>
    intro L npo hv h1 h2
    obtain ⟨hi0, hiN⟩ := hv i (List.mem_cons_self i is)
    have hvrest : ∀ j ∈ is, 0 ≤ j ∧ j < (chain.length : Int) :=
      fun j hj => hv j (List.mem_cons_of_mem i hj)
    have hik : i = (i.toNat : Int) := (Int.toNat_of_nonneg hi0).symm
    have hkN : i.toNat < chain.length := by omega
    by_cases hcase : i.toNat < L
    · have hr := (seek_wf_resolve tiff fh chain hwf L npo h1 h2 i.toNat hkN).1 hcase
      obtain ⟨L', npo', hLL', hL'N, hrest⟩ := ih L npo hvrest h1 h2
      refine ⟨L', npo', hLL', hL'N, ?_⟩
      simp only [seekMany]
      rw [hik, hr]
      simp only [hrest]
      simp
    · obtain ⟨npo'', hseek⟩ :=
        (seek_wf_resolve tiff fh chain hwf L npo h1 h2 i.toNat hkN).2 (by omega)
      obtain ⟨L', npo', hLL', hL'N, hrest⟩ := ih (i.toNat + 1) (some npo'') hvrest
        (by omega) (by omega)
      refine ⟨L', npo', by omega, hL'N, ?_⟩
      simp only [seekMany]
      rw [hik, hseek]
      simp only [hrest, Nat.add_sub_cancel]
      refine Prod.ext rfl (Prod.ext ?_ (by simp))
      simp only
      rw [← List.map_append]
      congr 1
      have hdd : chain.drop i.toNat = (chain.drop (L - 1)).drop (i.toNat + 1 - L) := by
        rw [List.drop_drop]
        congr 1
        omega
      rw [hdd, show i.toNat - L + 1 = i.toNat + 1 - L from by omega,
        show L' - L = (i.toNat + 1 - L) + (L' - (i.toNat + 1)) from by omega]
      exact (List.take_add _ _ _).symm

/-- C6: a well-formed `N`-directory chain terminated by a stored 0 gives
`len(pages) = N` with no error; and resolving any sequence of valid indices
from a fresh state reads chain headers only as a single forward-growing
prefix of the chain — every header at most once (`Nodup`), never backward. -/
theorem c6_wellformed_chain (tiff : TiffFormatDesc) (fh : FileH) (chain : List Nat)
    (npo : Option Int) (hwf : wfChain tiff fh chain) :
    ((pagesLen tiff false fh ⟨chainPages chain 1, false, npo⟩).1.err = none
      ∧ (pagesLen tiff false fh ⟨chainPages chain 1, false, npo⟩).2 = chain.length)
  ∧ (∀ idxs : List Int, (∀ i ∈ idxs, 0 ≤ i ∧ i < (chain.length : Int)) →
      (seekMany tiff false fh idxs ⟨chainPages chain 1, false, npo⟩).2.2 = false
      ∧ ∃ v, v ≤ chain.length ∧
          (seekMany tiff false fh idxs ⟨chainPages chain 1, false, npo⟩).2.1
            = (chain.take v).map (fun x : Nat => (x : Int))
          ∧ ((seekMany tiff false fh idxs ⟨chainPages chain 1, false, npo⟩).2.1).Nodup) := by
  have hne : chain ≠ [] := hwf.1
  have hN1 : 1 ≤ chain.length := by
    have := List.length_pos.mpr hne
    omega
  constructor
  · obtain ⟨npo', hseek⟩ := seek_wf_neg_one tiff fh chain hwf 1 npo (le_refl 1) hN1
    simp only [pagesLen]
    rw [if_neg (by simp), hseek]
    constructor
    · rfl
    · simp only
      exact chainPages_length chain chain.length (le_refl _)
  · intro idxs hv
    obtain ⟨L', npo', hLL', hL'N, hmany⟩ := seekMany_wf tiff fh chain hwf idxs 1 npo hv
      (le_refl 1) hN1
    rw [hmany]
    refine ⟨rfl, L' - 1, by omega, ?_, ?_⟩
    · simp only
      rw [show (1 : Nat) - 1 = 0 from rfl, List.drop_zero]
    · simp only
      refine List.Nodup.map (fun a b hab => by exact_mod_cast hab) ?_
      exact List.Nodup.sublist (List.take_sublist _ _)
        (List.Nodup.sublist (List.drop_sublist _ _) hwf.2.1)

/-- A three-directory classic little-endian chain: directories at offsets
8, 14, 20, each with zero tags, the last one storing next-offset 0. -/
def c6file : FileH :=
  FileH.ofList ([0, 0, 0, 0, 0, 0, 0, 0] ++ [0, 0, 14, 0, 0, 0]
    ++ [0, 0, 20, 0, 0, 0] ++ [0, 0, 0, 0, 0, 0])

/-- Witness for C6 on the concrete three-directory chain, resolving the
indices in the order 2, 0, 1. -/
theorem c6_wellformed_chain_witness :
    ((pagesLen CLASSIC_LE false c6file ⟨chainPages [8, 14, 20] 1, false, none⟩).1.err = none
      ∧ (pagesLen CLASSIC_LE false c6file ⟨chainPages [8, 14, 20] 1, false, none⟩).2
          = ([8, 14, 20] : List Nat).length)
  ∧ ((seekMany CLASSIC_LE false c6file [2, 0, 1]
        ⟨chainPages [8, 14, 20] 1, false, none⟩).2.2 = false
      ∧ ∃ v, v ≤ ([8, 14, 20] : List Nat).length ∧
          (seekMany CLASSIC_LE false c6file [2, 0, 1]
            ⟨chainPages [8, 14, 20] 1, false, none⟩).2.1
            = (([8, 14, 20] : List Nat).take v).map (fun x : Nat => (x : Int))
          ∧ ((seekMany CLASSIC_LE false c6file [2, 0, 1]
              ⟨chainPages [8, 14, 20] 1, false, none⟩).2.1).Nodup) := by
  have hwf : wfChain CLASSIC_LE c6file [8, 14, 20] := by
    refine ⟨by decide, by decide, by norm_num, ?_⟩
    intro i hi
    have hi3 : i < 3 := by simpa using hi
    interval_cases i
    · exact ⟨by decide, by decide, 0, by decide, by decide, by decide⟩
    · exact ⟨by decide, by decide, 0, by decide, by decide, by decide⟩
    · exact ⟨by decide, by decide, 0, by decide, by decide, by decide⟩
  have h := c6_wellformed_chain CLASSIC_LE c6file [8, 14, 20] none hwf
  exact ⟨h.1, h.2 [2, 0, 1] (by
    intro i hi
    fin_cases hi <;> exact ⟨by decide, by decide⟩)⟩

/-- Witness for C5 on a concrete two-slot state whose last slot has tag
count 5000. -/
theorem c5_corrupt_tag_count_witness :
    (seek CLASSIC_LE false (FileH.ofList (List.replicate 20 0 ++ [136, 19]))
        ⟨[8] ++ [20], false, none⟩ (-1) none
      = ⟨⟨[8], true, none⟩, [20], true, none⟩)
  ∧ (seek CLASSIC_LE true (FileH.ofList (List.replicate 20 0 ++ [136, 19]))
        ⟨[8] ++ [20], false, none⟩ (-1) none
      = ⟨⟨[8], true, none⟩, [20], true,
          some (PyErr.tiffFileError "suspicious number of tags")⟩) := by
  have h := c5_corrupt_tag_count CLASSIC_LE
    (FileH.ofList (List.replicate 20 0 ++ [136, 19])) [8] 20 none 5000
    (by decide) (by decide) (by decide) (by norm_num)
  exact ⟨h.1, h.2.1⟩

/-! ## `TiffPages._load_virtual_frames` (tifffile.py 1606-1643, for C3) -/

/-- Result of `_load_virtual_frames`: the final pages-state, whether the
`log.warning` handler ran, and any exception escaping the method (the
trailing `assert pages[1]` runs outside the `try`). -/
structure LvfResult where
  st : PagesState
  warned : Bool
  err : Option PyErr
  deriving Repr, DecidableEq

/-- The code after the `try`/`except` of `_load_virtual_frames` (lines
1641-1643 and the `assert` at 1640): `assert pages[1]` (IndexError on a
one-slot list, AssertionError on a zero slot, both uncaught and both
skipping the commits), then `self.pages = pages` and `self._indexed = True`. -/
def lvfCommit (st : PagesState) (pages : List Int) (warned : Bool) : LvfResult :=
  match pyGet pages 1 with
  | none => ⟨st, warned, some (.indexError "list index out of range")⟩
  | some v =>
      if v = 0 then ⟨st, warned, some .assertionError⟩
      else ⟨⟨pages, true, st.nextpageoffset⟩, warned, none⟩

/-- The `try` block of `_load_virtual_frames` up to and including
`self._seek(4)` (lines 1609-1619).  `bytecountsLen` is
`len(page._offsetscounts[1])` of the first slot; `rest` abstracts the rest
of the block (lines 1620-1635: the equidistance checks on `pages[1..4]`,
`_getitem(1, validate)` and the frame synthesis), returning the rebuilt
local `pages` list or a raised exception.  Returns the pages-state at exit
(mutations made by `_seek` persist across a raise) and the block's outcome. -/
def lvfTry (tiff : TiffFormatDesc) (isScanimage : Bool) (fh : FileH)
    (st : PagesState) (bytecountsLen : Nat)
    (rest : PagesState → Except PyErr (List Int)) :
    PagesState × Except PyErr (List Int) :=
  if 1 < st.pages.length then (st, .error (.valueError "pages already loaded"))
  else
    match pyGet st.pages 0 with
    | none => (st, .error (.indexError "list index out of range"))
    | some _ =>
        if bytecountsLen ≠ 1 then (st, .error (.valueError "data not contiguous"))
        else
          let r := seek tiff isScanimage fh st 4 none
          match r.err with
          | some e => (r.st, .error e)
          | none => (r.st, rest r.st)

/-- `TiffPages._load_virtual_frames` (lines 1606-1643): run the `try` block;
a caught exception logs the warning and leaves the local `pages` aliasing
`self.pages`; then the `assert`-and-commit tail runs either way. -/
def load_virtual_frames (tiff : TiffFormatDesc) (isScanimage : Bool) (fh : FileH)
    (st : PagesState) (bytecountsLen : Nat)
    (rest : PagesState → Except PyErr (List Int)) : LvfResult :=
  match lvfTry tiff isScanimage fh st bytecountsLen rest with
  | (st', .error _) => lvfCommit st' st'.pages true
  | (st', .ok ps) => lvfCommit st' ps false

theorem lvfCommit_warned (st : PagesState) (ps : List Int) (w : Bool) :
    (lvfCommit st ps w).warned = w := by
  unfold lvfCommit
  rcases pyGet ps 1 with _ | v
  · rfl
  · by_cases hv : v = 0 <;> simp [hv]

/-- A ScanImage file whose directory chain is NOT equally spaced: directories
at 8, 20 and 26 (gaps 12 and 6), 68 bytes total, every directory holding
zero tags. -/
def c3file : FileH :=
  FileH.ofList ([0, 0, 0, 0, 0, 0, 0, 0]
    ++ [0, 0, 20, 0, 0, 0]
    ++ [0, 0, 0, 0, 0, 0]
    ++ [0, 0, 26, 0, 0, 0]
    ++ [0, 0, 0, 0, 0, 0]
    ++ List.replicate 36 0)

/-- C3 counterexample: on a ScanImage file with inconsistently spaced
directories (8 → 20 → 26, gaps 12 and 6) the fast path neither verifies the
stride nor warns: it succeeds silently (`err = none`, `warned = false`),
reads only directory 8's header, and synthesizes slot 2 as 8 + 12·2 = 32
although the file's directory 1 at offset 20 points to the next directory at
26; moreover the full `_seek(4)` call ends in IndexError because the
ScanImage branch never updates the local `lenpages` (so the equidistance
check of `_load_virtual_frames`, which needs `_seek(4)` to return, is
unreachable). -/
theorem c3_inconsistent_stride_unverified :
    (seekScanimage CLASSIC_LE c3file [8] 8 none).err = none
  ∧ (seekScanimage CLASSIC_LE c3file [8] 8 none).warned = false
  ∧ (seekScanimage CLASSIC_LE c3file [8] 8 none).trace = [8]
  ∧ pyGet (seekScanimage CLASSIC_LE c3file [8] 8 none).st.pages 2 = some 32
  ∧ readTagno CLASSIC_LE c3file 20 = some 0
  ∧ readIfdOffset CLASSIC_LE c3file 22 = some 26
  ∧ (32 : Int) ≠ 26
  ∧ (seek CLASSIC_LE true c3file ⟨[8], false, none⟩ 4 none).err
      = some (.indexError "index out of range") := by
  decide

/-- C3 amended: on a ScanImage file, starting from the usual one-resolved-page
state, the fast path reads only the first directory's tag count and next-offset
and synthesizes every remaining slot arithmetically as first + stride·i up to
the file size (stride = the single measured gap), with no verification of the
spacing, no warning and no error; but because the branch never updates the
local `lenpages`, the enclosing `_seek(index)` then raises IndexError for
every index ≥ 1, so `_load_virtual_frames` — whose equidistance check sits
after its `_seek(4)` call — always takes its warning handler, whatever that
later code would do. -/
theorem c3_scanimage_fast_path (tiff : TiffFormatDesc) (fh : FileH)
    (o0 : Int) (npo : Option Int) (t nxt : Nat)
    (ht : readTagno tiff fh o0 = some t) (ht4 : t ≤ 4096)
    (hn : readIfdOffset tiff fh
        (o0 + (tiff.tagnosize : Int) + (t : Int) * (tiff.tagsize : Int)) = some nxt)
    (hu : (nxt : Int) ≠ o0) :
    (seekScanimage tiff fh [o0] o0 npo
      = ⟨⟨[o0] ++ ((List.range
              (Int.fdiv ((fh.size : Int) - o0) ((nxt : Int) - o0)).toNat).drop 1).map
            (fun i => o0 + ((nxt : Int) - o0) * (i : Int)), true,
          some (o0 + (tiff.tagnosize : Int) + (t : Int) * (tiff.tagsize : Int))⟩,
        [o0], false, none⟩)
  ∧ (∀ index : Int, 1 ≤ index →
      (seek tiff true fh ⟨[o0], false, npo⟩ index none).err
        = some (.indexError "index out of range"))
  ∧ (∀ bl : Nat, ∀ rest rest' : PagesState → Except PyErr (List Int),
      load_virtual_frames tiff true fh ⟨[o0], false, npo⟩ bl rest
        = load_virtual_frames tiff true fh ⟨[o0], false, npo⟩ bl rest'
      ∧ (load_virtual_frames tiff true fh ⟨[o0], false, npo⟩ bl rest).warned
          = true) := by
  have h1 : seekScanimage tiff fh [o0] o0 npo
      = ⟨⟨[o0] ++ ((List.range
              (Int.fdiv ((fh.size : Int) - o0) ((nxt : Int) - o0)).toNat).drop 1).map
            (fun i => o0 + ((nxt : Int) - o0) * (i : Int)), true,
          some (o0 + (tiff.tagnosize : Int) + (t : Int) * (tiff.tagsize : Int))⟩,
        [o0], false, none⟩ := by
    simp only [seekScanimage, ht]
    rw [if_neg (by omega : ¬ 4096 < t)]
    simp only [hn]
    rw [if_neg (sub_ne_zero_of_ne hu)]
  have h2 : ∀ index : Int, 1 ≤ index →
      (seek tiff true fh ⟨[o0], false, npo⟩ index none).err
        = some (.indexError "index out of range") := by
    intro index hidx
    have hstep : seek tiff true fh ⟨[o0], false, npo⟩ index none
        = seekFinish index 1 (seekScanimage tiff fh [o0] o0 npo) := by
      simp only [seek]
      rw [if_neg (by simp), if_neg (by simp; omega)]
      rfl
    rw [hstep, h1]
    simp only [seekFinish]
    rw [if_pos (by omega : ((1 : Nat) : Int) ≤ index)]
  refine ⟨h1, h2, ?_⟩
  intro bl rest rest'
  have htry : ∀ r : PagesState → Except PyErr (List Int),
      lvfTry tiff true fh ⟨[o0], false, npo⟩ bl r
        = if bl = 1 then
            ((seek tiff true fh ⟨[o0], false, npo⟩ 4 none).st,
              .error (.indexError "index out of range"))
          else (⟨[o0], false, npo⟩, .error (.valueError "data not contiguous")) := by
    intro r
    unfold lvfTry
    rw [if_neg (by simp)]
    rw [show pyGet [o0] 0 = some o0 from rfl]
    by_cases hbl : bl = 1
    · rw [if_neg (by simp [hbl]), if_pos hbl]
      simp only [h2 4 (by norm_num)]
    · rw [if_pos hbl, if_neg hbl]
  constructor
  · unfold load_virtual_frames
    rw [htry rest, htry rest']
  · unfold load_virtual_frames
    rw [htry rest]
    by_cases hbl : bl = 1
    · rw [if_pos hbl]
      exact lvfCommit_warned _ _ _
    · rw [if_neg hbl]
      exact lvfCommit_warned _ _ _

/-- Witness for C3 on the concrete inconsistently spaced ScanImage file:
`_seek(4)` raises IndexError and `_load_virtual_frames` warns. -/
theorem c3_scanimage_fast_path_witness :
    (seek CLASSIC_LE true c3file ⟨[8], false, none⟩ 4 none).err
        = some (.indexError "index out of range")
    ∧ (load_virtual_frames CLASSIC_LE true c3file ⟨[8], false, none⟩ 1
        (fun _ => .ok [])).warned = true :=
  ⟨(c3_scanimage_fast_path CLASSIC_LE c3file 8 none 0 20 (by decide) (by decide)
      (by decide) (by decide)).2.1 4 (by norm_num),
   ((c3_scanimage_fast_path CLASSIC_LE c3file 8 none 0 20 (by decide) (by decide)
      (by decide) (by decide)).2.2 1 (fun _ => .ok []) (fun _ => .ok [])).2⟩

/-! ## `TiffTag.__init__` value routing (tifffile.py 3310-3348, for C7) -/

/-- The last character of a `TIFF.DATA_FORMATS` struct format. -/
inductive FmtChar where
  | cB | cs | cH | cI | cb | ch | ci | cf | cd | cQ | cq
  deriving Repr, DecidableEq

/-- `struct.calcsize` of one element of each format character (with an
explicit byte-order prefix, struct uses standard sizes). -/
def FmtChar.size : FmtChar → Nat
  | cB => 1 | cs => 1 | cH => 2 | cI => 4 | cb => 1 | ch => 2
  | ci => 4 | cf => 4 | cd => 8 | cQ => 8 | cq => 8

/-- `TIFF.DATA_FORMATS` (lines 4962-4990): TIFF data type → (multiplier,
format character); absent keys raise KeyError. -/
def DATA_FORMATS : Nat → Option (Nat × FmtChar)
  | 1 => some (1, .cB)
  | 2 => some (1, .cs)
  | 3 => some (1, .cH)
  | 4 => some (1, .cI)
  | 5 => some (2, .cI)
  | 6 => some (1, .cb)
  | 7 => some (1, .cB)
  | 8 => some (1, .ch)
  | 9 => some (1, .ci)
  | 10 => some (2, .ci)
  | 11 => some (1, .cf)
  | 12 => some (1, .cd)
  | 13 => some (1, .cI)
  | 16 => some (1, .cQ)
  | 17 => some (1, .cq)
  | 18 => some (1, .cQ)
  | _ => none

/-- The tag codes registered in `TIFF.TAG_READERS` (lines 4672-4707):
force-routed through an indirect read regardless of size. -/
def TAG_READERS_codes : List Nat :=
  [320, 33723, 33628, 33629, 33630, 33631, 34118, 34361, 34362, 34363,
   34386, 34412, 34680, 34682, 37706, 37724, 33923, 43314, 40100, 50288,
   50296, 50839, 51123, 33471, 33560, 34665, 34853, 40965]

/-- How the tag's value was produced: via a registered reader function, via
`read_bytes`, via `unpack(fmt, fh.read(size))` (recording the bytes actually
read), via `read_numpy` — each at a file offset — or inline from the header's
value field with no channel access. -/
inductive TagValue where
  | viaReader (code : Nat) (offset : Nat)
  | viaBytes (offset : Nat)
  | viaUnpack (offset : Nat) (bytes : List Nat)
  | viaNumpy (offset : Nat)
  | inlineBytes (bytes : List Nat)
  | inlineUnpack (bytes : List Nat)
  deriving Repr, DecidableEq

/-- `TiffTag.__init__` after the header unpack (lines 3318-3348): dtype
lookup, encoded size, inline-versus-indirect routing with the offset bounds
check, and the value read.  `inTags` abstracts membership in the `TIFF.TAGS`
registry; `value` is the raw inline value field (`offsetsize` bytes).
Returns `(valueoffset, value)`. -/
def tifftag_init (tiff : TiffFormatDesc) (fh : FileH) (inTags : Nat → Bool)
    (tagoffset : Int) (code type_ count : Nat) (value : List Nat) :
    Except PyErr (Int × TagValue) :=
  match DATA_FORMATS type_ with
  | none => .error (.tiffFileError "unknown tag data type")
  | some (mult, c1) =>
      let size := count * mult * c1.size
      if tiff.offsetsize < size ∨ code ∈ TAG_READERS_codes then
        match unpackUInt tiff.byteorderLE tiff.offsetsize value with
        | none => .error .structError
        | some offset =>
            if (offset : Int) < 8 ∨ (fh.size : Int) - (size : Int) < (offset : Int) then
              .error (.tiffFileError "invalid tag value offset")
            else if code ∈ TAG_READERS_codes then
              .ok ((offset : Int), .viaReader code offset)
            else if type_ = 7 ∨ (1 < count ∧ c1 = .cB) then
              .ok ((offset : Int), .viaBytes offset)
            else if inTags code ∨ c1 = .cs then
              .ok ((offset : Int), .viaUnpack offset (fh.read offset size))
            else
              .ok ((offset : Int), .viaNumpy offset)
      else if c1 = .cB ∨ type_ = 7 then
        .ok (tagoffset + (tiff.offsetsize : Int) + 4, .inlineBytes (value.take size))
      else
        .ok (tagoffset + (tiff.offsetsize : Int) + 4, .inlineUnpack (value.take size))

/-- C7: with encoded size `count·mult·elemsize`, a tag whose size exceeds the
inline capacity or whose code is force-routed treats the inline field as an
offset, raising the invalid-offset error exactly when `offset < 8` or
`offset + size > fh.size`; an in-bounds indirect tag decodes with
`valueoffset = offset`; and a tag that fits inline and is not force-routed
decodes in place, with a result that is independent of the channel. -/
theorem c7_tag_value_routing (tiff : TiffFormatDesc) (fh : FileH)
    (inTags : Nat → Bool) (tagoffset : Int) (code type_ count : Nat)
    (value : List Nat) (mult : Nat) (c1 : FmtChar)
    (hd : DATA_FORMATS type_ = some (mult, c1)) :
    (∀ offset : Nat, unpackUInt tiff.byteorderLE tiff.offsetsize value = some offset →
      (tiff.offsetsize < count * mult * c1.size ∨ code ∈ TAG_READERS_codes) →
      ((offset : Int) < 8 ∨ (fh.size : Int) < (offset : Int) + (count * mult * c1.size : Nat)) →
      tifftag_init tiff fh inTags tagoffset code type_ count value
        = .error (.tiffFileError "invalid tag value offset"))
  ∧ (∀ offset : Nat, unpackUInt tiff.byteorderLE tiff.offsetsize value = some offset →
      (tiff.offsetsize < count * mult * c1.size ∨ code ∈ TAG_READERS_codes) →
      8 ≤ (offset : Int) →
      (offset : Int) + (count * mult * c1.size : Nat) ≤ (fh.size : Int) →
      ∃ v : TagValue, tifftag_init tiff fh inTags tagoffset code type_ count value
        = .ok ((offset : Int), v))
  ∧ (count * mult * c1.size ≤ tiff.offsetsize → code ∉ TAG_READERS_codes →
      ∃ v : TagValue, ∀ fh' : FileH,
        tifftag_init tiff fh' inTags tagoffset code type_ count value
          = .ok (tagoffset + (tiff.offsetsize : Int) + 4, v)) := by
  refine ⟨?_, ?_, ?_⟩
  · intro offset hu hroute hbad
    simp only [tifftag_init, hd, hu]
    rw [if_pos hroute, if_pos (by omega)]
  · intro offset hu hroute h8 hin
    simp only [tifftag_init, hd, hu]
    rw [if_pos hroute, if_neg (by push_neg; exact ⟨h8, by omega⟩)]
    by_cases hc : code ∈ TAG_READERS_codes
    · exact ⟨_, by rw [if_pos hc]⟩
    · rw [if_neg hc]
      by_cases h7 : type_ = 7 ∨ (1 < count ∧ c1 = FmtChar.cB)
      · exact ⟨_, by rw [if_pos h7]⟩
      · rw [if_neg h7]
        by_cases ht : (inTags code : Prop) ∨ c1 = FmtChar.cs
        · exact ⟨_, by rw [if_pos ht]⟩
        · exact ⟨_, by rw [if_neg ht]⟩
  · intro hfit hnc
    have hroute : ¬(tiff.offsetsize < count * mult * c1.size ∨ code ∈ TAG_READERS_codes) := by
      push_neg
      exact ⟨by omega, hnc⟩
    by_cases hB : c1 = FmtChar.cB ∨ type_ = 7
    · refine ⟨.inlineBytes (value.take (count * mult * c1.size)), fun fh' => ?_⟩
      simp only [tifftag_init, hd]
      rw [if_neg hroute, if_pos hB]
    · refine ⟨.inlineUnpack (value.take (count * mult * c1.size)), fun fh' => ?_⟩
      simp only [tifftag_init, hd]
      rw [if_neg hroute, if_neg hB]

/-- Witness for C7 at concrete tags: a short type (size 8 > inline 4) whose
stored offset 0 is rejected; the same tag with in-bounds offset 8 decoding
indirectly; and a one-element short tag decoding inline on every channel. -/
theorem c7_tag_value_routing_witness :
    tifftag_init CLASSIC_LE (FileH.ofList (List.replicate 40 0)) (fun _ => false)
        10 256 3 4 [0, 0, 0, 0]
      = .error (.tiffFileError "invalid tag value offset")
  ∧ (∃ v : TagValue, tifftag_init CLASSIC_LE (FileH.ofList (List.replicate 40 0))
        (fun _ => false) 10 256 3 4 [8, 0, 0, 0] = .ok ((8 : Int), v))
  ∧ (∃ v : TagValue, ∀ fh' : FileH,
      tifftag_init CLASSIC_LE fh' (fun _ => false) 10 256 3 1 [5, 0, 0, 0]
        = .ok (10 + (CLASSIC_LE.offsetsize : Int) + 4, v)) :=
  ⟨(c7_tag_value_routing CLASSIC_LE (FileH.ofList (List.replicate 40 0))
      (fun _ => false) 10 256 3 4 [0, 0, 0, 0] 1 .cH (by decide)).1 0
      (by decide) (by decide) (by decide),
   (c7_tag_value_routing CLASSIC_LE (FileH.ofList (List.replicate 40 0))
      (fun _ => false) 10 256 3 4 [8, 0, 0, 0] 1 .cH (by decide)).2.1 8
      (by decide) (by decide) (by decide) (by decide),
   (c7_tag_value_routing CLASSIC_LE (FileH.ofList (List.replicate 40 0))
      (fun _ => false) 10 256 3 1 [5, 0, 0, 0] 1 .cH (by decide)).2.2
      (by decide) (by decide)⟩

/-! ## `TiffFrame.__init__` and the keyframe setter (tifffile.py 3096-3235, C8) -/

/-- The keyframe attributes consulted by `TiffFrame`: `imagewidth`,
`dataoffsets`, the memoized `is_contiguous` result (`(offset, size)` or
`None`) and `is_tiled`. -/
structure KeyframeRec where
  imagewidth : Int
  dataoffsets : List Int
  is_contiguous : Option (Int × Int)
  is_tiled : Bool
  deriving Repr, DecidableEq

/-- The wanted tag-code set of `TiffFrame.__init__` (lines 3118-3124),
chosen from the keyframe: `{273,279,324,325}` with no keyframe,
`{256,273,324}` for a contiguous keyframe, else `{256,273,279,324,325}`. -/
def frameWantedCodes (keyframe : Option KeyframeRec) : List Nat :=
  match keyframe with
  | none => [273, 279, 324, 325]
  | some kf =>
      if kf.is_contiguous.isSome then [256, 273, 324]
      else [256, 273, 279, 324, 325]

/-- The tag loop of `TiffFrame.__init__` (lines 3127-3134) over the IFD's
`(code, value)` pairs in file order; a tag value is its tuple of elements
(codes 273/279/324/325 are in `TIFF.TAG_TUPLE`, so their values stay tuples;
a code-256 width is a one-element value).  The `code ∉ wanted` skip is the
filter `_gettags(tags)` applies; when the wanted set omits 256 (no keyframe)
the 256 arm is unreachable. -/
def frameTagLoop (keyframe : Option KeyframeRec) (wanted : List Nat) :
    List (Nat × List Int) → List Int → List Int →
    Except PyErr (List Int × List Int)
  | [], dofs, dbcs => .ok (dofs, dbcs)
  | (code, v) :: rest, dofs, dbcs =>
      if code ∉ wanted then frameTagLoop keyframe wanted rest dofs dbcs
      else if code = 273 ∨ code = 324 then frameTagLoop keyframe wanted rest v dbcs
      else if code = 279 ∨ code = 325 then frameTagLoop keyframe wanted rest dofs v
      else if code = 256 then
        match keyframe with
        | some kf =>
            if v ≠ [kf.imagewidth] then
              .error (.runtimeError "incompatible keyframe")
            else frameTagLoop keyframe wanted rest dofs dbcs
        | none => frameTagLoop keyframe wanted rest dofs dbcs
      else frameTagLoop keyframe wanted rest dofs dbcs

/-- The `keyframe` setter (lines 3221-3235): no-op when re-assigning the
same keyframe, `cannot reset keyframe` over a different one, `incompatible
keyframe` on a segment-count mismatch, and for a contiguous keyframe the
collapse of `_offsetscounts` to one segment.  Returns the object state
(`_offsetscounts`, `_keyframe`) — unchanged up to the point of a raise —
and the exception, if any. -/
def frame_set_keyframe (cur : Option KeyframeRec) (oc : List Int × List Int)
    (kf : KeyframeRec) :
    ((List Int × List Int) × Option KeyframeRec) × Option PyErr :=
  if cur = some kf then ((oc, cur), none)
  else if cur ≠ none then ((oc, cur), some (.runtimeError "cannot reset keyframe"))
  else if oc.1.length ≠ kf.dataoffsets.length then
    ((oc, none), some (.runtimeError "incompatible keyframe"))
  else
    match kf.is_contiguous with
    | some c =>
        match oc.1 with
        | [] => ((oc, none), some (.indexError "tuple index out of range"))
        | o :: _ => ((([o], [c.2]), some kf), none)
    | none => ((oc, some kf), none)

/-- `TiffFrame.__init__` (lines 3096-3150): the virtual-frame early return
(`offsets` given) stores the pair and binds the keyframe unchecked;
otherwise the tag loop runs and, with a keyframe, the keyframe setter.
A raise aborts construction: no frame object, so no keyframe is bound. -/
def tiffframe_init (keyframe : Option KeyframeRec)
    (virtualOffs : Option (List Int × List Int))
    (alltags : List (Nat × List Int)) :
    Except PyErr ((List Int × List Int) × Option KeyframeRec) :=
  match virtualOffs with
  | some oc => .ok (oc, keyframe)
  | none =>
      match frameTagLoop keyframe (frameWantedCodes keyframe) alltags [] [] with
      | .error e => .error e
      | .ok oc =>
          match keyframe with
          | none => .ok (oc, none)
          | some kf =>
              match frame_set_keyframe none oc kf with
              | (st, none) => .ok st
              | (_, some e) => .error e

theorem frameTagLoop_mismatch (kf : KeyframeRec) (wanted : List Nat)
    (hw : 256 ∈ wanted) :
    ∀ (l : List (Nat × List Int)) (dofs dbcs v : List Int),
      (256, v) ∈ l → v ≠ [kf.imagewidth] →
      frameTagLoop (some kf) wanted l dofs dbcs
        = .error (.runtimeError "incompatible keyframe") := by
  intro l
  induction l with
  | nil =>
    intro _ _ v hv _
    simp at hv
  | cons hd rest ih =>
    intro dofs dbcs v hv hne
    obtain ⟨code, w⟩ := hd
    rcases List.mem_cons.mp hv with heq | hrest
    · have hc : code = 256 := by
        have := congrArg Prod.fst heq
        simpa using this.symm
      have hwv : w = v := by
        have := congrArg Prod.snd heq
        simpa using this.symm
      subst hc hwv
      simp only [frameTagLoop]
      rw [if_neg (by simp [hw]), if_neg (by norm_num), if_neg (by norm_num),
        if_pos trivial, if_pos hne]
    · simp only [frameTagLoop]
      by_cases h1 : code ∈ wanted
      · rw [if_neg (by simp [h1])]
        by_cases h2 : code = 273 ∨ code = 324
        · rw [if_pos h2]
          exact ih _ _ v hrest hne
        · rw [if_neg h2]
          by_cases h3 : code = 279 ∨ code = 325
          · rw [if_pos h3]
            exact ih _ _ v hrest hne
          · rw [if_neg h3]
            by_cases h4 : code = 256
            · rw [if_pos h4]
              by_cases h5 : w ≠ [kf.imagewidth]
              · rw [if_pos h5]
              · rw [if_neg h5]
                exact ih _ _ v hrest hne
            · rw [if_neg h4]
              exact ih _ _ v hrest hne
      · rw [if_pos h1]
        exact ih _ _ v hrest hne

/-- C8: materializing a frame whose width tag disagrees with its keyframe's
width raises `incompatible keyframe` (construction aborts, so no keyframe is
bound), and assigning a keyframe whose segment count differs from the
frame's raises `incompatible keyframe` with the frame's keyframe left
unbound. -/
theorem c8_incompatible_keyframe (kf : KeyframeRec) :
    (∀ alltags : List (Nat × List Int),
      (∃ v, (256, v) ∈ alltags ∧ v ≠ [kf.imagewidth]) →
      tiffframe_init (some kf) none alltags
        = .error (.runtimeError "incompatible keyframe"))
  ∧ (∀ oc : List Int × List Int, oc.1.length ≠ kf.dataoffsets.length →
      frame_set_keyframe none oc kf
        = ((oc, none), some (.runtimeError "incompatible keyframe"))) := by
  constructor
  · rintro alltags ⟨v, hmem, hne⟩
    have hw : 256 ∈ frameWantedCodes (some kf) := by
      cases h : kf.is_contiguous <;> simp [frameWantedCodes, h]
    simp only [tiffframe_init,
      frameTagLoop_mismatch kf (frameWantedCodes (some kf)) hw alltags [] [] v hmem hne]
  · intro oc hlen
    unfold frame_set_keyframe
    rw [if_neg (by simp), if_neg (by simp), if_pos hlen]

/-- Witness for C8: a keyframe of width 7 with one data segment, a frame
whose width tag reads 9, and a keyframe assignment onto a two-segment
frame. -/
theorem c8_incompatible_keyframe_witness :
    tiffframe_init (some ⟨7, [100], none, false⟩) none [(273, [10]), (256, [9])]
      = .error (.runtimeError "incompatible keyframe")
  ∧ frame_set_keyframe none ([1, 2], [3, 4]) ⟨7, [100], none, false⟩
      = ((([1, 2], [3, 4]), none), some (.runtimeError "incompatible keyframe")) :=
  ⟨(c8_incompatible_keyframe ⟨7, [100], none, false⟩).1 [(273, [10]), (256, [9])]
      ⟨[9], by decide, by decide⟩,
   (c8_incompatible_keyframe ⟨7, [100], none, false⟩).2 ([1, 2], [3, 4]) (by decide)⟩

/-! ## Segment reading and nodata fills (tifffile.py 7437-7460, 2452-2471,
6921-6937, for C9) -/

/-- `buffered_read(fh, lock, offsets, bytecounts)` (lines 7437-7460),
collected into the list of yielded segments (`none` where
`offsets[i] > 0 and bytecounts[i] > 0` fails) together with the list of
`(position, bytecount)` channel reads actually performed, in order.  The
buffer-size batching only groups yields and does not change either list.
The lists are walked in lockstep (the caller passes equal lengths). -/
def buffered_read (fh : FileH) :
    List Int → List Int → List (Option (List Nat)) × List (Nat × Nat)
  | o :: os, bc :: bcs =>
      let r := buffered_read fh os bcs
      if 0 < o ∧ 0 < bc then
        (some (fh.read o.toNat bc.toNat) :: r.1, (o.toNat, bc.toNat) :: r.2)
      else (none :: r.1, r.2)
  | _, _ => ([], [])

/-- `result[index:index+n] = v` on a flat array: the slice (clipped at the
array end) is broadcast-filled with `v`. -/
def fillRange (result : List Int) (index n : Nat) (v : Int) : List Int :=
  (List.range result.length).map
    (fun i => if index ≤ i ∧ i < index + n then v else result.getD i 0)

/-- `result[index:index+len(vals)] = vals` on a flat array. -/
def writeSeg (result : List Int) (index : Nat) (vals : List Int) : List Int :=
  (List.range result.length).map
    (fun i => if index ≤ i ∧ i < index + vals.length then vals.getD (i - index) 0
      else result.getD i 0)

/-- The strip loop of `TiffPage.asarray` (lines 2456-2471) over the segments
yielded by `buffered_read`: a `None` segment fills `stripsize` elements with
`nodata` and advances; a real segment is decoded (`decodeSeg` abstracts
`bitorder_decode`/`decompress`/`unpack`), clipped to
`min(result.size, strip.size, stripsize, result.size - index)` elements,
written, and advances by that size. -/
def strip_fill (nodata : Int) (stripsize : Nat) (decodeSeg : List Nat → List Int) :
    List (Option (List Nat)) → List Int → Nat → List Int
  | [], result, _ => result
  | none :: rest, result, index =>
      strip_fill nodata stripsize decodeSeg rest
        (fillRange result index stripsize nodata) (index + stripsize)
  | some s :: rest, result, index =>
      let strip := decodeSeg s
      let size := min (min result.length strip.length)
          (min stripsize (result.length - index))
      strip_fill nodata stripsize decodeSeg rest
        (writeSeg result index (strip.take size)) (index + size)

/-- The output region of tile `tileindex` in the 5-D output array (the
slice bounds of lines 6924-6937): plane `tileindex // (tiledwidth ·
tiledlength · tileddepth)`, then depth/length/width blocks from the mixed
radix decomposition of `tileindex`, each clipped at the image dimension.
The samples axis is covered whole. -/
def tileRegion (tileshape : Nat × Nat × Nat × Nat) (tiledshape : Nat × Nat × Nat)
    (imagedims : Nat × Nat × Nat) (tileindex : Nat)
    (p : Nat × Nat × Nat × Nat × Nat) : Prop :=
  p.1 = tileindex / (tiledshape.2.2 * tiledshape.2.1 * tiledshape.1)
  ∧ tileindex / (tiledshape.2.2 * tiledshape.2.1) % tiledshape.1 * tileshape.1 ≤ p.2.1
  ∧ p.2.1 < min (tileindex / (tiledshape.2.2 * tiledshape.2.1) % tiledshape.1
        * tileshape.1 + tileshape.1) imagedims.1
  ∧ tileindex / tiledshape.2.2 % tiledshape.2.1 * tileshape.2.1 ≤ p.2.2.1
  ∧ p.2.2.1 < min (tileindex / tiledshape.2.2 % tiledshape.2.1 * tileshape.2.1
        + tileshape.2.1) imagedims.2.1
  ∧ tileindex % tiledshape.2.2 * tileshape.2.2.1 ≤ p.2.2.2.1
  ∧ p.2.2.2.1 < min (tileindex % tiledshape.2.2 * tileshape.2.2.1
        + tileshape.2.2.1) imagedims.2.2

instance (ts : Nat × Nat × Nat × Nat) (tds ids : Nat × Nat × Nat) (ti : Nat)
    (p : Nat × Nat × Nat × Nat × Nat) : Decidable (tileRegion ts tds ids ti p) := by
  unfold tileRegion
  infer_instance

/-- `tile_decode` (lines 6921-6937) on the 5-D output array, represented as
a total function on indices (`tileshape = (tiledepth, tilelength, tilewidth,
samples)`, `tiledshape = (tileddepth, tiledlength, tiledwidth)`, `imagedims`
from `out.shape`): a `None` tile fills its whole output region with
`nodata`; a real tile is decoded (`decodeTile` abstracts the
decompress/unpack/reshape/unpredict pipeline) and written clipped at the
image dimensions; indices outside the region keep their value. -/
def tile_decode (tile : Option (List Nat)) (tileindex : Nat)
    (tileshape : Nat × Nat × Nat × Nat) (tiledshape : Nat × Nat × Nat)
    (imagedims : Nat × Nat × Nat)
    (decodeTile : List Nat → Nat × Nat × Nat × Nat → Int) (nodata : Int)
    (out : Nat × Nat × Nat × Nat × Nat → Int) :
    Nat × Nat × Nat × Nat × Nat → Int :=
  fun p =>
    if tileRegion tileshape tiledshape imagedims tileindex p then
      match tile with
      | none => nodata
      | some t =>
          decodeTile t
            (p.2.1 - tileindex / (tiledshape.2.2 * tiledshape.2.1) % tiledshape.1
                * tileshape.1,
             p.2.2.1 - tileindex / tiledshape.2.2 % tiledshape.2.1 * tileshape.2.1,
             p.2.2.2.1 - tileindex % tiledshape.2.2 * tileshape.2.2.1,
             p.2.2.2.2)
    else out p

theorem buffered_read_spec (fh : FileH) :
    ∀ offsets bytecounts : List Int, offsets.length = bytecounts.length →
      buffered_read fh offsets bytecounts
        = ((offsets.zip bytecounts).map
            (fun ob => if 0 < ob.1 ∧ 0 < ob.2
              then some (fh.read ob.1.toNat ob.2.toNat) else none),
           ((offsets.zip bytecounts).filter
              (fun ob => decide (0 < ob.1 ∧ 0 < ob.2))).map
            (fun ob => (ob.1.toNat, ob.2.toNat))) := by
  intro offsets
  induction offsets with
  | nil =>
    intro bcs h
    cases bcs with
    | nil => rfl
    | cons b bs => simp at h
  | cons o os ih =>
    intro bcs h
    cases bcs with
    | nil => simp at h
    | cons bc bcs =>
      have h' : os.length = bcs.length := by simpa using h
      by_cases hp : 0 < o ∧ 0 < bc
      · simp only [buffered_read, if_pos hp, ih bcs h', List.zip_cons_cons,
          List.map_cons, List.filter_cons, if_pos hp]
        simp [hp]
      · simp only [buffered_read, if_neg hp, ih bcs h', List.zip_cons_cons,
          List.map_cons, List.filter_cons, if_neg hp]
        simp [hp]

theorem fillRange_length (result : List Int) (index n : Nat) (v : Int) :
    (fillRange result index n v).length = result.length := by
  simp [fillRange]

theorem writeSeg_length (result : List Int) (index : Nat) (vals : List Int) :
    (writeSeg result index vals).length = result.length := by
  simp [writeSeg]

theorem fillRange_getD (result : List Int) (index n : Nat) (v : Int) (q : Nat)
    (hq : q < result.length) :
    (fillRange result index n v).getD q 0
      = if index ≤ q ∧ q < index + n then v else result.getD q 0 := by
  have hq' : q < (fillRange result index n v).length := by
    rw [fillRange_length]; exact hq
  rw [List.getD_eq_getElem _ _ hq']
  simp only [fillRange, List.getElem_map, List.getElem_range]

theorem writeSeg_getD (result : List Int) (index : Nat) (vals : List Int) (q : Nat)
    (hq : q < result.length) :
    (writeSeg result index vals).getD q 0
      = if index ≤ q ∧ q < index + vals.length then vals.getD (q - index) 0
        else result.getD q 0 := by
  have hq' : q < (writeSeg result index vals).length := by
    rw [writeSeg_length]; exact hq
  rw [List.getD_eq_getElem _ _ hq']
  simp only [writeSeg, List.getElem_map, List.getElem_range]

theorem strip_fill_getD (nodata : Int) (stripsize : Nat)
    (decodeSeg : List Nat → List Int) (hs : 0 < stripsize) :
    ∀ (segs : List (Option (List Nat))) (result : List Int) (index : Nat),
      result.length = index + segs.length * stripsize →
      (∀ x : List Nat, some x ∈ segs → (decodeSeg x).length = stripsize) →
      ∀ q : Nat, q < result.length →
      (strip_fill nodata stripsize decodeSeg segs result index).getD q 0
        = if q < index then result.getD q 0
          else match segs.getD ((q - index) / stripsize) none with
            | none => nodata
            | some s => (decodeSeg s).getD ((q - index) % stripsize) 0 := by
  intro segs
  induction segs with
  | nil =>
    intro result index hlen _ q hq
    rw [if_pos (by simp at hlen; omega)]
    rfl
  | cons seg rest ih =>
    intro result index hlen hdec q hq
    have hm : (rest.length + 1) * stripsize = rest.length * stripsize + stripsize := by
      ring
    have hlen' : result.length = index + (rest.length * stripsize + stripsize) := by
      rw [hlen, List.length_cons, hm]
    have hdec' : ∀ x : List Nat, some x ∈ rest → (decodeSeg x).length = stripsize := by
      intro x hx
      exact hdec x (List.mem_cons_of_mem _ hx)
    cases seg with
    | none =>
      have hlen2 : (fillRange result index stripsize nodata).length
          = (index + stripsize) + rest.length * stripsize := by
        rw [fillRange_length]
        omega
      have hq2 : q < (fillRange result index stripsize nodata).length := by
        rw [fillRange_length]
        exact hq
      have ihq := ih (fillRange result index stripsize nodata) (index + stripsize)
        hlen2 hdec' q hq2
      rw [show strip_fill nodata stripsize decodeSeg (none :: rest) result index
          = strip_fill nodata stripsize decodeSeg rest
              (fillRange result index stripsize nodata) (index + stripsize) from rfl,
        ihq]
      by_cases h1 : q < index
      · rw [if_pos (by omega), if_pos h1, fillRange_getD _ _ _ _ _ hq,
          if_neg (by omega)]
      · by_cases h2 : q < index + stripsize
        · rw [if_pos h2, if_neg h1, fillRange_getD _ _ _ _ _ hq, if_pos (by omega)]
          have hdiv : (q - index) / stripsize = 0 := Nat.div_eq_of_lt (by omega)
          rw [hdiv]
          rfl
        · rw [if_neg h2, if_neg h1]
          have harith : q - index = (q - (index + stripsize)) + stripsize := by omega
          rw [harith, Nat.add_div_right _ hs, Nat.add_mod_right]
          rfl
    | some s =>
      have hstrip : (decodeSeg s).length = stripsize :=
        hdec s (List.mem_cons_self _ _)
      have hsize : min (min result.length (decodeSeg s).length)
          (min stripsize (result.length - index)) = stripsize := by
        rw [hstrip]
        generalize rest.length * stripsize = M at hlen'
        omega
      have htake : (decodeSeg s).take stripsize = decodeSeg s := by
        rw [← hstrip]
        exact List.take_length _
      have hstep : strip_fill nodata stripsize decodeSeg (some s :: rest) result index
          = strip_fill nodata stripsize decodeSeg rest
              (writeSeg result index (decodeSeg s)) (index + stripsize) := by
        rw [show strip_fill nodata stripsize decodeSeg (some s :: rest) result index
            = strip_fill nodata stripsize decodeSeg rest
                (writeSeg result index ((decodeSeg s).take
                  (min (min result.length (decodeSeg s).length)
                    (min stripsize (result.length - index)))))
                (index + min (min result.length (decodeSeg s).length)
                  (min stripsize (result.length - index))) from rfl,
          hsize, htake]
      have hlen2 : (writeSeg result index (decodeSeg s)).length
          = (index + stripsize) + rest.length * stripsize := by
        rw [writeSeg_length]
        omega
      have hq2 : q < (writeSeg result index (decodeSeg s)).length := by
        rw [writeSeg_length]
        exact hq
      have ihq := ih (writeSeg result index (decodeSeg s)) (index + stripsize)
        hlen2 hdec' q hq2
      rw [hstep, ihq]
      by_cases h1 : q < index
      · rw [if_pos (by omega), if_pos h1, writeSeg_getD _ _ _ _ hq, if_neg (by omega)]
      · by_cases h2 : q < index + stripsize
        · rw [if_pos h2, if_neg h1, writeSeg_getD _ _ _ _ hq,
            if_pos (by rw [hstrip]; omega)]
          have hdiv : (q - index) / stripsize = 0 := Nat.div_eq_of_lt (by omega)
          have hmod : (q - index) % stripsize = q - index := Nat.mod_eq_of_lt (by omega)
          rw [hdiv, hmod]
          rfl
        · rw [if_neg h2, if_neg h1]
          have harith : q - index = (q - (index + stripsize)) + stripsize := by omega
          rw [harith, Nat.add_div_right _ hs, Nat.add_mod_right]
          rfl

theorem tileindex_decomp (i tw tl td : Nat) :
    tw * (tl * (td * (i / (tw * tl * td)) + i / (tw * tl) % td) + i / tw % tl)
      + i % tw = i := by
  have h12 : i / tw / tl = i / (tw * tl) := Nat.div_div_eq_div_mul i tw tl
  have h123 : i / (tw * tl) / td = i / (tw * tl * td) := Nat.div_div_eq_div_mul i (tw * tl) td
  calc tw * (tl * (td * (i / (tw * tl * td)) + i / (tw * tl) % td) + i / tw % tl) + i % tw
      = tw * (tl * (i / (tw * tl)) + i / tw % tl) + i % tw := by
        rw [← h123, Nat.div_add_mod]
    _ = tw * (i / tw) + i % tw := by
        rw [← h12, Nat.div_add_mod]
    _ = i := Nat.div_add_mod i tw

theorem block_index_eq (a b d k : Nat) (ha1 : a * k ≤ d) (ha2 : d < a * k + k)
    (hb1 : b * k ≤ d) (hb2 : d < b * k + k) : a = b := by
  rcases Nat.lt_trichotomy a b with h | h | h
  · exfalso
    have h1 : a + 1 ≤ b := h
    have h2 : (a + 1) * k ≤ b * k := Nat.mul_le_mul_right k h1
    have h3 : a * k + k = (a + 1) * k := by ring
    omega
  · exact h
  · exfalso
    have h1 : b + 1 ≤ a := h
    have h2 : (b + 1) * k ≤ a * k := Nat.mul_le_mul_right k h1
    have h3 : b * k + k = (b + 1) * k := by ring
    omega

theorem tileRegion_disjoint (tileshape : Nat × Nat × Nat × Nat)
    (tiledshape : Nat × Nat × Nat) (imagedims : Nat × Nat × Nat)
    (i j : Nat) (p : Nat × Nat × Nat × Nat × Nat) (hne : i ≠ j) :
    ¬(tileRegion tileshape tiledshape imagedims i p
      ∧ tileRegion tileshape tiledshape imagedims j p) := by
  rintro ⟨⟨hpl₁, hd₁, hd₁', hl₁, hl₁', hw₁, hw₁'⟩,
    ⟨hpl₂, hd₂, hd₂', hl₂, hl₂', hw₂, hw₂'⟩⟩
  apply hne
  have hd₁'' : p.2.1 < i / (tiledshape.2.2 * tiledshape.2.1) % tiledshape.1
      * tileshape.1 + tileshape.1 := lt_of_lt_of_le hd₁' (min_le_left _ _)
  have hd₂'' : p.2.1 < j / (tiledshape.2.2 * tiledshape.2.1) % tiledshape.1
      * tileshape.1 + tileshape.1 := lt_of_lt_of_le hd₂' (min_le_left _ _)
  have hl₁'' : p.2.2.1 < i / tiledshape.2.2 % tiledshape.2.1 * tileshape.2.1
      + tileshape.2.1 := lt_of_lt_of_le hl₁' (min_le_left _ _)
  have hl₂'' : p.2.2.1 < j / tiledshape.2.2 % tiledshape.2.1 * tileshape.2.1
      + tileshape.2.1 := lt_of_lt_of_le hl₂' (min_le_left _ _)
  have hw₁'' : p.2.2.2.1 < i % tiledshape.2.2 * tileshape.2.2.1 + tileshape.2.2.1 :=
    lt_of_lt_of_le hw₁' (min_le_left _ _)
  have hw₂'' : p.2.2.2.1 < j % tiledshape.2.2 * tileshape.2.2.1 + tileshape.2.2.1 :=
    lt_of_lt_of_le hw₂' (min_le_left _ _)
  have hpl : i / (tiledshape.2.2 * tiledshape.2.1 * tiledshape.1)
      = j / (tiledshape.2.2 * tiledshape.2.1 * tiledshape.1) := by
    rw [← hpl₁, ← hpl₂]
  have hdb : i / (tiledshape.2.2 * tiledshape.2.1) % tiledshape.1
      = j / (tiledshape.2.2 * tiledshape.2.1) % tiledshape.1 :=
    block_index_eq _ _ p.2.1 tileshape.1 hd₁ hd₁'' hd₂ hd₂''
  have hlb : i / tiledshape.2.2 % tiledshape.2.1
      = j / tiledshape.2.2 % tiledshape.2.1 :=
    block_index_eq _ _ p.2.2.1 tileshape.2.1 hl₁ hl₁'' hl₂ hl₂''
  have hwb : i % tiledshape.2.2 = j % tiledshape.2.2 :=
    block_index_eq _ _ p.2.2.2.1 tileshape.2.2.1 hw₁ hw₁'' hw₂ hw₂''
  calc i = tiledshape.2.2 * (tiledshape.2.1 * (tiledshape.1
          * (i / (tiledshape.2.2 * tiledshape.2.1 * tiledshape.1))
          + i / (tiledshape.2.2 * tiledshape.2.1) % tiledshape.1)
          + i / tiledshape.2.2 % tiledshape.2.1) + i % tiledshape.2.2 :=
        (tileindex_decomp i tiledshape.2.2 tiledshape.2.1 tiledshape.1).symm
    _ = tiledshape.2.2 * (tiledshape.2.1 * (tiledshape.1
          * (j / (tiledshape.2.2 * tiledshape.2.1 * tiledshape.1))
          + j / (tiledshape.2.2 * tiledshape.2.1) % tiledshape.1)
          + j / tiledshape.2.2 % tiledshape.2.1) + j % tiledshape.2.2 := by
        rw [hpl, hdb, hlb, hwb]
    _ = j := tileindex_decomp j tiledshape.2.2 tiledshape.2.1 tiledshape.1

/-- C9: segments with non-positive offset or byte count are yielded as
`None` and never read from the channel (the reads performed are exactly the
positive segments', in order, and no error is raised); in the strip loop a
`None` segment's region — and exactly that region — is filled with the
page's `nodata` sentinel while every other position holds its segment's
decoded data; and a `None` tile fills exactly its own output region with
`nodata`, regions of distinct tiles being disjoint. -/
theorem c9_skipped_segment_nodata (fh : FileH) (nodata : Int) (stripsize : Nat)
    (decodeSeg : List Nat → List Int)
    (tileshape : Nat × Nat × Nat × Nat) (tiledshape : Nat × Nat × Nat)
    (imagedims : Nat × Nat × Nat)
    (decodeTile : List Nat → Nat × Nat × Nat × Nat → Int)
    (out : Nat × Nat × Nat × Nat × Nat → Int) :
    (∀ offsets bytecounts : List Int, offsets.length = bytecounts.length →
      buffered_read fh offsets bytecounts
        = ((offsets.zip bytecounts).map
            (fun ob => if 0 < ob.1 ∧ 0 < ob.2
              then some (fh.read ob.1.toNat ob.2.toNat) else none),
           ((offsets.zip bytecounts).filter
              (fun ob => decide (0 < ob.1 ∧ 0 < ob.2))).map
            (fun ob => (ob.1.toNat, ob.2.toNat))))
  ∧ (0 < stripsize →
      ∀ (segs : List (Option (List Nat))) (result : List Int),
        result.length = segs.length * stripsize →
        (∀ x : List Nat, some x ∈ segs → (decodeSeg x).length = stripsize) →
        ∀ q : Nat, q < result.length →
        (strip_fill nodata stripsize decodeSeg segs result 0).getD q 0
          = match segs.getD (q / stripsize) none with
            | none => nodata
            | some s => (decodeSeg s).getD (q % stripsize) 0)
  ∧ (∀ (tileindex : Nat) (p : Nat × Nat × Nat × Nat × Nat),
      (tileRegion tileshape tiledshape imagedims tileindex p →
        tile_decode none tileindex tileshape tiledshape imagedims decodeTile
          nodata out p = nodata)
      ∧ (¬ tileRegion tileshape tiledshape imagedims tileindex p →
        ∀ tile : Option (List Nat),
          tile_decode tile tileindex tileshape tiledshape imagedims decodeTile
            nodata out p = out p))
  ∧ (∀ (i j : Nat) (p : Nat × Nat × Nat × Nat × Nat), i ≠ j →
      ¬(tileRegion tileshape tiledshape imagedims i p
        ∧ tileRegion tileshape tiledshape imagedims j p)) := by
  refine ⟨buffered_read_spec fh, ?_, ?_, ?_⟩
  · intro hss segs result hlen hdec q hq
    rw [strip_fill_getD nodata stripsize decodeSeg hss segs result 0
      (by rw [Nat.zero_add]; exact hlen) hdec q hq]
    rw [if_neg (by omega), Nat.sub_zero]
  · intro tileindex p
    constructor
    · intro hreg
      simp only [tile_decode]
      rw [if_pos hreg]
    · intro hnreg tile
      simp only [tile_decode]
      rw [if_neg hnreg]
  · intro i j p hne
    exact tileRegion_disjoint tileshape tiledshape imagedims i j p hne

/-- Witness for C9 on concrete data: three segments of which two are
skipped, a two-strip page whose second strip is `None`, and the second of
two unit tiles missing. -/
theorem c9_skipped_segment_nodata_witness :
    buffered_read (FileH.ofList [1, 2, 3, 4, 5, 6, 7, 8]) [5, 0, 7] [2, 3, 0]
      = ([some [6, 7], none, none], [(5, 2)])
  ∧ (strip_fill (-1) 2 (fun s => s.map (fun b : Nat => (b : Int)))
      [some [9, 8], none] [0, 0, 0, 0] 0).getD 2 0 = -1
  ∧ tile_decode none 1 (1, 1, 1, 1) (1, 1, 2) (5, 5, 5) (fun _ _ => 0) (-1)
      (fun _ => 7) (0, 0, 0, 1, 0) = -1
  ∧ ¬(tileRegion (1, 1, 1, 1) (1, 1, 2) (5, 5, 5) 0 (0, 0, 0, 1, 0)
      ∧ tileRegion (1, 1, 1, 1) (1, 1, 2) (5, 5, 5) 1 (0, 0, 0, 1, 0)) := by
  refine ⟨?_, ?_, ?_, ?_⟩
  · exact ((c9_skipped_segment_nodata (FileH.ofList [1, 2, 3, 4, 5, 6, 7, 8]) 0 1
      (fun _ => []) (1, 1, 1, 1) (1, 1, 1) (1, 1, 1) (fun _ _ => 0) (fun _ => 0)).1
      [5, 0, 7] [2, 3, 0] (by decide)).trans (by decide)
  · exact ((c9_skipped_segment_nodata (FileH.ofList []) (-1) 2
      (fun s => s.map (fun b : Nat => (b : Int))) (1, 1, 1, 1) (1, 1, 1) (1, 1, 1)
      (fun _ _ => 0) (fun _ => 0)).2.1 (by decide) [some [9, 8], none] [0, 0, 0, 0]
      (by decide)
      (by
        intro x hx
        simp at hx
        subst hx
        decide)
      2 (by decide)).trans (by decide)
  · exact ((c9_skipped_segment_nodata (FileH.ofList []) (-1) 1 (fun _ => [])
      (1, 1, 1, 1) (1, 1, 2) (5, 5, 5) (fun _ _ => 0) (fun _ => 7)).2.2.1
      1 (0, 0, 0, 1, 0)).1 (by decide)
  · exact (c9_skipped_segment_nodata (FileH.ofList []) 0 1 (fun _ => [])
      (1, 1, 1, 1) (1, 1, 2) (5, 5, 5) (fun _ _ => 0) (fun _ => 0)).2.2.2
      0 1 (0, 0, 0, 1, 0) (by decide)

/-! ## `TiffPage.asarray` empty-shape early return (tifffile.py 2260-2292, C10) -/

/-- `product(iterable)` (line 7784): product of a sequence, `1` when empty. -/
def product (l : List Nat) : Nat := l.foldl (fun a b => a * b) 1

/-- The head of `TiffPage.asarray` after `self = self.keyframe` (lines
2267-2292): the empty/zero-shape early `return None`, then — only when
`validate` is not `False` — the validation chain (maxsize, dtype,
decompressor, SampleFormat consistency, chroma subsampling), the
`validate is None` early return, and finally the decode body, abstracted as
`rest` (it holds every channel read and buffer allocation).  `shape` is the
keyframe's normalized `_shape`; `dtypeNone`, `compressionOK`,
`sampleformat` (count and values of the SampleFormat tag, if present),
`is_subsampled`, `compression` and `planarconfig` mirror the attributes the
checks consult. -/
def asarray_prefix (shape : List Nat) (validate : Option Bool)
    (maxsize : Option Nat) (dtypeNone : Bool) (compressionOK : Bool)
    (sampleformat : Option (Nat × List Int)) (is_subsampled : Bool)
    (compression planarconfig : Nat)
    (rest : Except PyErr (Option (List Int))) : Except PyErr (Option (List Int)) :=
  if shape = [] ∨ product shape = 0 then .ok none
  else if validate ≠ some false then
    let ms := maxsize.getD (2 ^ 44)
    if ms ≠ 0 ∧ ms < product shape then .error (.valueError "data are too large")
    else if dtypeNone then .error (.valueError "data type not supported")
    else if ¬compressionOK then .error (.valueError "cannot decompress")
    else if (match sampleformat with
        | some (c, v) => decide (c ≠ 1) && v.any (fun i => decide (i ≠ v.headD 0))
        | none => false) then
      .error (.valueError "sample formats do not match")
    else if is_subsampled ∧ (compression ∉ [6, 7] ∨ planarconfig = 2) then
      .error (.notImplementedError "chroma subsampling not supported")
    else if validate = none then .ok none
    else rest
  else rest

/-- C10: an empty or zero-product normalized shape makes `asarray` return
`None` at once — ahead of the whole validation chain (which could otherwise
raise) and of the decode body with its channel reads and allocations —
whatever every other argument is. -/
theorem c10_empty_shape_returns_none (shape : List Nat)
    (h : shape = [] ∨ product shape = 0) (validate : Option Bool)
    (maxsize : Option Nat) (dtypeNone compressionOK : Bool)
    (sampleformat : Option (Nat × List Int)) (is_subsampled : Bool)
    (compression planarconfig : Nat) (rest : Except PyErr (Option (List Int))) :
    asarray_prefix shape validate maxsize dtypeNone compressionOK sampleformat
      is_subsampled compression planarconfig rest = .ok none := by
  unfold asarray_prefix
  rw [if_pos h]

/-- Witness for C10: a zero-count shape with arguments that would otherwise
fail validation (`dtypeNone = true`) and a non-`None` decode body. -/
theorem c10_empty_shape_returns_none_witness :
    asarray_prefix [2, 0, 3] (some true) none true true none false 1 1
      (.ok (some [5])) = .ok none :=
  c10_empty_shape_returns_none [2, 0, 3] (Or.inr (by decide)) (some true) none
    true true none false 1 1 (.ok (some [5]))

end Tifffile
